import Mathlib

/-!
# MTGCard3DTiltEffect (static/js/card-effects.js)

A shallow embedding of the class `MTGCard3DTiltEffect` and of the part of the host page it
talks to (inline styles, event-listener registries, the animation-frame queue, the
device-orientation permission promise).

Modelling conventions.
* A JavaScript number is the rational it denotes.  In `handleTilt`, of which bounds and
  exact values of the computed angles are stated, every arithmetic operation is the IEEE 754
  binary64 one: the exact result rounded by `round64` (53-bit significand, ties to even,
  gradual underflow below `2 ^ (-1022)`).  Results that would be `NaN` or `±Infinity`
  (division by zero, magnitudes from `2 ^ 1024` on) are not modelled; unary minus is exact.
* In `handleGyro`, in the frame callback of `updateTransform` and in `updateShineEffect` the
  expressions of the source are kept over exact rationals: `Math.min` and `Math.max` are
  exact, and what is stated of the other operations is which expression is computed.
* The template literals written to `style.transform` are kept as the tuple of their
  interpolated values (`CardTransform`, `Translate`) rather than as text.
* Every evaluation of a function expression or of `Function.prototype.bind` yields a new
  function object; function identity is a natural number drawn from the counter `nextFn`.
* `console.log` / `console.error` are not modelled.
-/

namespace CardEffects

/-! ## Data model -/

/-- The record `this.settings`. -/
structure Settings where
  tiltEffectMaxRotation : ℚ
  tiltEffectPerspective : ℚ
  tiltEffectScale : ℚ
  shineMovementRange : ℚ
  rainbowShineMovementRange : ℚ
  deriving DecidableEq

/-- The value `perspective(Ppx) rotateX(Xdeg) rotateY(Ydeg) scale3d(A, B, C)` of the card
transform, by its interpolated numbers. -/
structure CardTransform where
  perspective : ℚ
  rotateX : ℚ
  rotateY : ℚ
  scaleX : ℚ
  scaleY : ℚ
  scaleZ : ℚ
  deriving DecidableEq

/-- The value `translate(x%, y%)` of an overlay transform. -/
structure Translate where
  x : ℚ
  y : ℚ
  deriving DecidableEq

/-- Inline style of the card element; `transform = none` is a transform this class has not
written. -/
structure CardStyle where
  transform : Option CardTransform
  transformStyle : String
  willChange : String
  transition : String
  deriving DecidableEq

/-- Inline style of an overlay element (`.shine-effect`, `.rainbow-shine-effect`);
`transform = none` is an element on which no translation has been written. -/
structure OverlayStyle where
  transform : Option Translate
  opacity : String
  transition : String
  deriving DecidableEq

/-- The card element handed to the constructor: its inline style and what
`querySelector` finds under it for the two overlay classes. -/
structure CardElement where
  style : CardStyle
  shineEffect : Option OverlayStyle
  rainbowShineEffect : Option OverlayStyle
  deriving DecidableEq

/-- Result of `getBoundingClientRect()`. -/
structure Rect where
  left : ℚ
  top : ℚ
  width : ℚ
  height : ℚ
  deriving DecidableEq

/-- The fields of a mouse event that the class reads. -/
structure MouseEvent where
  clientX : ℚ
  clientY : ℚ
  deriving DecidableEq

/-- The fields of a device-orientation event that the class reads; `none` is `null`. -/
structure DeviceOrientationEvent where
  beta : Option ℚ
  gamma : Option ℚ
  deriving DecidableEq

/-- What `typeof DeviceOrientationEvent` and `typeof DeviceOrientationEvent.requestPermission`
say on the platform. -/
inductive OrientationAPI
  | undefined
  | available
  | withRequestPermission
  deriving DecidableEq

/-- The platform: the outcome of the user-agent test and the orientation capability. -/
structure Platform where
  isMobile : Bool
  orientation : OrientationAPI
  deriving DecidableEq

/-- Bodies of the callbacks the class registers as event listeners. -/
inductive Handler
  | mouseEnter
  | mouseMove
  | mouseLeave
  | gyro
  deriving DecidableEq

/-- A registered listener: event name, identity of the function object, and its body. -/
structure Listener where
  event : String
  fn : Nat
  handler : Handler
  deriving DecidableEq

/-- Closures handed to `requestAnimationFrame`. -/
inductive Frame
  | initialState
  | transform (angleX angleY : ℚ)
  | reset
  deriving DecidableEq

/-- An instance of the class together with the host-page state it acts on. -/
structure MTGCard3DTiltEffect where
  card : CardStyle
  isLightbox : Bool
  shine : OverlayStyle
  rainbowShine : OverlayStyle
  settings : Settings
  isMobile : Bool
  gyroAvailable : Bool
  /-- listeners registered on `this.card` -/
  cardListeners : List Listener
  /-- listeners registered on `window` -/
  windowListeners : List Listener
  /-- callbacks queued for the next animation frame, oldest first -/
  frames : List Frame
  /-- an unsettled `DeviceOrientationEvent.requestPermission()` promise -/
  permissionPending : Bool
  /-- identity of the next function object to be created -/
  nextFn : Nat
  deriving DecidableEq

/-! ## Host-page primitives -/

/-- Queue a callback for the next frame. -/
def requestAnimationFrame (w : MTGCard3DTiltEffect) (cb : Frame) : MTGCard3DTiltEffect :=
  { w with frames := w.frames ++ [cb] }

/-- Registration of a newly created function object on a target. -/
def addEventListener (ls : List Listener) (event : String) (fn : Nat) (h : Handler) :
    List Listener :=
  ls ++ [⟨event, fn, h⟩]

/-- Removal by event name and function identity. -/
def removeEventListener (ls : List Listener) (event : String) (fn : Nat) : List Listener :=
  ls.filter (fun l => !(l.event == event && l.fn == fn))

/-! ## Double-precision arithmetic -/

/-- Nearest integer, a tie going to the even neighbour. -/
def roundNearestEven (x : ℚ) : ℤ :=
  if x - ⌊x⌋ < 1 / 2 then ⌊x⌋
  else if 1 / 2 < x - ⌊x⌋ then ⌊x⌋ + 1
  else if ⌊x⌋ % 2 = 0 then ⌊x⌋ else ⌊x⌋ + 1

/-- Exponent of the unit in the last place of the binary64 numbers around a positive `x`:
52 below the binade of `x`, and never below that of the subnormal numbers. -/
def ulpExponent (x : ℚ) : ℤ := max (Int.log 2 x) (-1022) - 52

/-- Rounding of a non-negative rational to binary64. -/
def roundMagnitude (x : ℚ) : ℚ :=
  (roundNearestEven (x / 2 ^ ulpExponent x) : ℚ) * 2 ^ ulpExponent x

/-- Rounding of a rational to binary64, round to nearest, ties to even. -/
def round64 (x : ℚ) : ℚ :=
  if x < 0 then -roundMagnitude (-x) else roundMagnitude x

/-- The operator `+` on numbers. -/
def addDouble (a b : ℚ) : ℚ := round64 (a + b)

/-- The operator `-` on numbers. -/
def subDouble (a b : ℚ) : ℚ := round64 (a - b)

/-- The operator `*` on numbers. -/
def mulDouble (a b : ℚ) : ℚ := round64 (a * b)

/-- The operator `/` on numbers, for a non-zero divisor. -/
def divDouble (a b : ℚ) : ℚ := round64 (a / b)

/-! ## Methods of the class -/

/-- Style given by `createShineElement` through `cssText` (`opacity: 0`, no transform). -/
def createShineElement : OverlayStyle :=
  { transform := none, opacity := "0", transition := "" }

/-- Style given by `createRainbowShineElement` through `cssText` (`opacity: 0`, no
transform). -/
def createRainbowShineElement : OverlayStyle :=
  { transform := none, opacity := "0", transition := "" }

/-- Method `setupInitialState`: queues the neutral-pose write. -/
def setupInitialState (w : MTGCard3DTiltEffect) : MTGCard3DTiltEffect :=
  requestAnimationFrame w Frame.initialState

/-- Method `setupEventListeners`: three fresh closures on the card unless the instance is
mobile and in lightbox mode. -/
def setupEventListeners (w : MTGCard3DTiltEffect) : MTGCard3DTiltEffect :=
  if !w.isMobile || !w.isLightbox then
    { w with
      cardListeners :=
        addEventListener
          (addEventListener
            (addEventListener w.cardListeners "mouseenter" w.nextFn Handler.mouseEnter)
            "mousemove" (w.nextFn + 1) Handler.mouseMove)
          "mouseleave" (w.nextFn + 2) Handler.mouseLeave
      nextFn := w.nextFn + 3 }
  else w

/-- The two places of `setupGyro` that subscribe: `gyroAvailable = true` and a listener
that is a fresh `this.handleGyro.bind(this)`. -/
def subscribeGyro (w : MTGCard3DTiltEffect) : MTGCard3DTiltEffect :=
  { w with
    gyroAvailable := true
    windowListeners := addEventListener w.windowListeners "deviceorientation" w.nextFn Handler.gyro
    nextFn := w.nextFn + 1 }

/-- Method `setupGyro`. -/
def setupGyro (w : MTGCard3DTiltEffect) (api : OrientationAPI) : MTGCard3DTiltEffect :=
  match api with
  | OrientationAPI.withRequestPermission => { w with permissionPending := true }
  | OrientationAPI.available => subscribeGyro w
  | OrientationAPI.undefined => w

/-- Settlement of the permission promise of `setupGyro`: `some response` resolves it,
`none` rejects it (the `.catch(console.error)` branch). -/
def settlePermission (w : MTGCard3DTiltEffect) (response : Option String) :
    MTGCard3DTiltEffect :=
  if w.permissionPending then
    match response with
    | some r =>
      if r == "granted" then subscribeGyro { w with permissionPending := false }
      else { w with permissionPending := false }
    | none => { w with permissionPending := false }
  else w

/-- Method `init`. -/
def init (w : MTGCard3DTiltEffect) (api : OrientationAPI) : MTGCard3DTiltEffect :=
  let w1 := if w.isMobile && w.isLightbox then setupGyro w api else w
  setupInitialState (setupEventListeners w1)

/-- The constructor, for a card element that is present. -/
def construct (cardElement : CardElement) (platform : Platform) (isLightbox : Bool := false) :
    MTGCard3DTiltEffect :=
  init
    { card := cardElement.style
      isLightbox := isLightbox
      shine := cardElement.shineEffect.getD createShineElement
      rainbowShine := cardElement.rainbowShineEffect.getD createRainbowShineElement
      settings :=
        { tiltEffectMaxRotation := if isLightbox then 20 else 15
          tiltEffectPerspective := if isLightbox then 1000 else 800
          tiltEffectScale := if isLightbox then 1.05 else 1.03
          shineMovementRange := if isLightbox then 150 else 100
          rainbowShineMovementRange := if isLightbox then 75 else 50 }
      isMobile := platform.isMobile
      gyroAvailable := false
      cardListeners := []
      windowListeners := []
      frames := []
      permissionPending := false
      nextFn := 0 }
    platform.orientation

/-- The constructor: throws when the card element is absent. -/
def new (cardElement : Option CardElement) (platform : Platform) (isLightbox : Bool := false) :
    Except String MTGCard3DTiltEffect :=
  match cardElement with
  | none => Except.error "No card element provided"
  | some el => Except.ok (construct el platform isLightbox)

/-- Method `updateTransform`: queues the transform write for the angle pair. -/
def updateTransform (w : MTGCard3DTiltEffect) (angleX angleY : ℚ) : MTGCard3DTiltEffect :=
  requestAnimationFrame w (Frame.transform angleX angleY)

/-- Method `handleTilt`; `rect` is what `this.card.getBoundingClientRect()` returns. -/
def handleTilt (w : MTGCard3DTiltEffect) (rect : Rect) (e : MouseEvent) : MTGCard3DTiltEffect :=
  let centerX := addDouble rect.left (divDouble rect.width 2)
  let centerY := addDouble rect.top (divDouble rect.height 2)
  let mouseX := subDouble e.clientX centerX
  let mouseY := subDouble e.clientY centerY
  let angleX :=
    mulDouble (divDouble mouseY (divDouble rect.height 2)) w.settings.tiltEffectMaxRotation
  let angleY :=
    mulDouble (divDouble (-mouseX) (divDouble rect.width 2)) w.settings.tiltEffectMaxRotation
  updateTransform w angleX angleY

/-- Method `handleGyro`. -/
def handleGyro (w : MTGCard3DTiltEffect) (event : DeviceOrientationEvent) :
    MTGCard3DTiltEffect :=
  if !w.gyroAvailable then w
  else
    match event.beta, event.gamma with
    | some beta, some gamma =>
      let clampedBeta := max (-90) (min beta 90)
      let clampedGamma := max (-45) (min gamma 45)
      let angleX := (clampedBeta / 90) * w.settings.tiltEffectMaxRotation
      let angleY := (clampedGamma / 45) * w.settings.tiltEffectMaxRotation
      updateTransform w angleX angleY
    | _, _ => w

/-- Method `updateShineEffect`. -/
def updateShineEffect (element : OverlayStyle) (angleX angleY range : ℚ) : OverlayStyle :=
  let x := -angleY * range
  let y := -angleX * range
  { element with transform := some ⟨x, y⟩, opacity := "1" }

/-- Method `setTransition`. -/
def setTransition (w : MTGCard3DTiltEffect) (active : Bool) : MTGCard3DTiltEffect :=
  let transition := if active then "all 0.5s ease-out" else "none"
  { w with
    card := { w.card with transition := transition }
    shine := { w.shine with transition := transition }
    rainbowShine := { w.rainbowShine with transition := transition } }

/-- Method `resetShineEffect`. -/
def resetShineEffect (element : OverlayStyle) : OverlayStyle :=
  { element with transform := some ⟨0, 0⟩, opacity := "0" }

/-- Method `resetTilt`. -/
def resetTilt (w : MTGCard3DTiltEffect) : MTGCard3DTiltEffect :=
  requestAnimationFrame (setTransition w true) Frame.reset

/-- Method `destroy`: every `removeEventListener` is given a function object created on the
spot. -/
def destroy (w : MTGCard3DTiltEffect) : MTGCard3DTiltEffect :=
  let w1 :=
    if w.gyroAvailable then
      { w with
        windowListeners := removeEventListener w.windowListeners "deviceorientation" w.nextFn
        nextFn := w.nextFn + 1 }
    else w
  { w1 with
    cardListeners :=
      removeEventListener
        (removeEventListener
          (removeEventListener w1.cardListeners "mouseenter" w1.nextFn)
          "mousemove" (w1.nextFn + 1))
        "mouseleave" (w1.nextFn + 2)
    nextFn := w1.nextFn + 3 }

/-! ## Execution of callbacks -/

/-- Body of one queued animation-frame callback. -/
def runCallback (w : MTGCard3DTiltEffect) (cb : Frame) : MTGCard3DTiltEffect :=
  match cb with
  | Frame.initialState =>
    { w with
      card :=
        { w.card with
          transform := some ⟨w.settings.tiltEffectPerspective, 0, 0, 1, 1, 1⟩
          transformStyle := "preserve-3d"
          willChange := "transform" } }
  | Frame.transform angleX angleY =>
    let angleXNormalized := angleX / w.settings.tiltEffectMaxRotation
    let angleYNormalized := angleY / w.settings.tiltEffectMaxRotation
    { w with
      card :=
        { w.card with
          transform :=
            some ⟨w.settings.tiltEffectPerspective, angleX, angleY,
              w.settings.tiltEffectScale, w.settings.tiltEffectScale,
              w.settings.tiltEffectScale⟩ }
      shine :=
        updateShineEffect w.shine angleXNormalized angleYNormalized
          w.settings.shineMovementRange
      rainbowShine :=
        updateShineEffect w.rainbowShine angleXNormalized angleYNormalized
          w.settings.rainbowShineMovementRange }
  | Frame.reset =>
    { w with
      card := { w.card with transform := some ⟨w.settings.tiltEffectPerspective, 0, 0, 1, 1, 1⟩ }
      shine := resetShineEffect w.shine
      rainbowShine := resetShineEffect w.rainbowShine }

/-- One display refresh: the queued callbacks run in the order they were queued. -/
def runFrame (w : MTGCard3DTiltEffect) : MTGCard3DTiltEffect :=
  w.frames.foldl runCallback { w with frames := [] }

/-- Call of a listener body with the event it was dispatched for. -/
def callHandler (w : MTGCard3DTiltEffect) (h : Handler) (rect : Rect) (e : MouseEvent)
    (o : DeviceOrientationEvent) : MTGCard3DTiltEffect :=
  match h with
  | Handler.mouseEnter => setTransition w false
  | Handler.mouseMove => handleTilt w rect e
  | Handler.mouseLeave => resetTilt w
  | Handler.gyro => handleGyro w o

/-- Dispatch of an event to the listeners of one target registered under its name. -/
def dispatch (w : MTGCard3DTiltEffect) (ls : List Listener) (event : String) (rect : Rect)
    (e : MouseEvent) (o : DeviceOrientationEvent) : MTGCard3DTiltEffect :=
  (ls.filter (fun l => l.event == event)).foldl (fun acc l => callHandler acc l.handler rect e o) w

/-- What can happen to an instance after construction. -/
inductive Step
  /-- a mouse event of the given name on the card, with the card rectangle at that time -/
  | cardEvent (event : String) (rect : Rect) (e : MouseEvent)
  /-- an event of the given name on `window` -/
  | windowEvent (event : String) (o : DeviceOrientationEvent)
  /-- a display refresh -/
  | animationFrame
  /-- the permission promise settles -/
  | permission (response : Option String)
  /-- a call of `destroy()` -/
  | destroy

/-- Effect of one step. -/
def step (w : MTGCard3DTiltEffect) (s : Step) : MTGCard3DTiltEffect :=
  match s with
  | Step.cardEvent event rect e => dispatch w w.cardListeners event rect e ⟨none, none⟩
  | Step.windowEvent event o => dispatch w w.windowListeners event ⟨0, 0, 0, 0⟩ ⟨0, 0⟩ o
  | Step.animationFrame => runFrame w
  | Step.permission response => settlePermission w response
  | Step.destroy => destroy w

/-- Effect of a sequence of steps. -/
def run (w : MTGCard3DTiltEffect) (steps : List Step) : MTGCard3DTiltEffect :=
  steps.foldl step w

/-- Whether a listener registry holds a listener for the event name. -/
def hasListener (ls : List Listener) (event : String) : Bool :=
  ls.any (fun l => l.event == event)

/-! ## Auxiliary facts -/

/-- The part of the state that no event handler and no frame callback writes. -/
def static (w : MTGCard3DTiltEffect) :
    Settings × Bool × Bool × Bool × List Listener × List Listener × Bool × Nat :=
  (w.settings, w.isMobile, w.isLightbox, w.gyroAvailable, w.cardListeners, w.windowListeners,
    w.permissionPending, w.nextFn)

/-- The three listeners `setupEventListeners` registers on a fresh instance. -/
def pointerListeners (isMobile isLightbox : Bool) : List Listener :=
  if !isMobile || !isLightbox then
    [⟨"mouseenter", 0, Handler.mouseEnter⟩, ⟨"mousemove", 1, Handler.mouseMove⟩,
      ⟨"mouseleave", 2, Handler.mouseLeave⟩]
  else []

/-- What holds of every state an instance built by `construct _ p flag` can reach. -/
structure Reach (p : Platform) (flag : Bool) (w : MTGCard3DTiltEffect) : Prop where
  settings_eq : w.settings =
    ⟨if flag then 20 else 15, if flag then 1000 else 800,
      if flag then 1.05 else 1.03, if flag then 150 else 100,
      if flag then 75 else 50⟩
  isMobile_eq : w.isMobile = p.isMobile
  isLightbox_eq : w.isLightbox = flag
  card_eq : w.cardListeners = pointerListeners p.isMobile flag
  card_fresh : ∀ l ∈ w.cardListeners, l.fn < w.nextFn
  window_fresh : ∀ l ∈ w.windowListeners, l.fn < w.nextFn
  window_only : w.windowListeners ≠ [] → p.isMobile = true ∧ flag = true
  pending_only : w.permissionPending = true → p.isMobile = true ∧ flag = true
  gyro_only : w.gyroAvailable = true → p.isMobile = true ∧ flag = true

/-- The neutral presentation state for perspective `P`: card transform
`perspective(P) rotateX(0) rotateY(0) scale3d(1, 1, 1)`, both overlays with opacity 0 and
with no translation or `translate(0%, 0%)`. -/
def AtRest (P : ℚ) (w : MTGCard3DTiltEffect) : Prop :=
  w.card.transform = some ⟨P, 0, 0, 1, 1, 1⟩ ∧
  w.shine.opacity = "0" ∧ (w.shine.transform = none ∨ w.shine.transform = some ⟨0, 0⟩) ∧
  w.rainbowShine.opacity = "0" ∧
  (w.rainbowShine.transform = none ∨ w.rainbowShine.transform = some ⟨0, 0⟩)

/-- The rectangle and the pointer lie on a grid of step `2 ^ g`: every coordinate is an
integer multiple of `2 ^ g`, and the origin and the extent of the rectangle are at most
`2 ^ 50` steps.  With `g = 0` these are integer pixel coordinates up to `2 ^ 50`. -/
structure OnGrid (g : ℤ) (rect : Rect) (e : MouseEvent) : Prop where
  step_ge : -1000 ≤ g
  step_le : g ≤ 900
  left_mul : ∃ n : ℤ, rect.left = n * 2 ^ g
  top_mul : ∃ n : ℤ, rect.top = n * 2 ^ g
  width_mul : ∃ n : ℤ, rect.width = n * 2 ^ g
  height_mul : ∃ n : ℤ, rect.height = n * 2 ^ g
  clientX_mul : ∃ n : ℤ, e.clientX = n * 2 ^ g
  clientY_mul : ∃ n : ℤ, e.clientY = n * 2 ^ g
  left_le : |rect.left| ≤ 2 ^ 50 * 2 ^ g
  top_le : |rect.top| ≤ 2 ^ 50 * 2 ^ g
  width_le : rect.width ≤ 2 ^ 50 * 2 ^ g
  height_le : rect.height ≤ 2 ^ 50 * 2 ^ g

theorem foldl_static {β : Type} (f : MTGCard3DTiltEffect → β → MTGCard3DTiltEffect)
    (hf : ∀ a b, static (f a b) = static a) (l : List β) (a : MTGCard3DTiltEffect) :
    static (l.foldl f a) = static a := by
  induction l generalizing a with
  | nil => rfl
  | cons b l ih => rw [List.foldl_cons, ih, hf]

theorem static_handleGyro (w : MTGCard3DTiltEffect) (o : DeviceOrientationEvent) :
    static (handleGyro w o) = static w := by
  unfold handleGyro
  split
  · rfl
  · split <;> rfl

theorem static_callHandler (w : MTGCard3DTiltEffect) (h : Handler) (rect : Rect)
    (e : MouseEvent) (o : DeviceOrientationEvent) :
    static (callHandler w h rect e o) = static w := by
  cases h
  · rfl
  · rfl
  · rfl
  · exact static_handleGyro w o

theorem static_runCallback (w : MTGCard3DTiltEffect) (cb : Frame) :
    static (runCallback w cb) = static w := by
  cases cb <;> rfl

theorem static_dispatch (w : MTGCard3DTiltEffect) (ls : List Listener) (event : String)
    (rect : Rect) (e : MouseEvent) (o : DeviceOrientationEvent) :
    static (dispatch w ls event rect e o) = static w := by
  unfold dispatch
  exact foldl_static (fun acc (l : Listener) => callHandler acc l.handler rect e o)
    (fun a l => static_callHandler a l.handler rect e o) _ w

theorem static_runFrame (w : MTGCard3DTiltEffect) : static (runFrame w) = static w := by
  unfold runFrame
  rw [foldl_static _ static_runCallback]
  rfl

theorem Reach.of_static {p : Platform} {flag : Bool} {w w2 : MTGCard3DTiltEffect}
    (h : static w2 = static w) (r : Reach p flag w) : Reach p flag w2 := by
  simp only [static, Prod.mk.injEq] at h
  obtain ⟨h1, h2, h3, h4, h5, h6, h7, h8⟩ := h
  exact
    { settings_eq := h1 ▸ r.settings_eq
      isMobile_eq := h2 ▸ r.isMobile_eq
      isLightbox_eq := h3 ▸ r.isLightbox_eq
      card_eq := h5 ▸ r.card_eq
      card_fresh := by rw [h5, h8]; exact r.card_fresh
      window_fresh := by rw [h6, h8]; exact r.window_fresh
      window_only := by rw [h6]; exact r.window_only
      pending_only := by rw [h7]; exact r.pending_only
      gyro_only := by rw [h4]; exact r.gyro_only }

/-- Removing a function object newer than every registered one removes nothing. -/
theorem removeEventListener_fresh (ls : List Listener) (event : String) (n k : Nat)
    (h : ∀ l ∈ ls, l.fn < n) (hk : n ≤ k) : removeEventListener ls event k = ls := by
  unfold removeEventListener
  rw [List.filter_eq_self]
  intro l hl
  have hne : (l.fn == k) = false := by
    have := h l hl
    simp only [beq_eq_false_iff_ne, ne_eq]
    omega
  simp [hne]

/-- On a reachable state `destroy()` detaches nothing. -/
theorem destroy_listeners {p : Platform} {flag : Bool} {w : MTGCard3DTiltEffect}
    (r : Reach p flag w) :
    (destroy w).cardListeners = w.cardListeners ∧
      (destroy w).windowListeners = w.windowListeners := by
  have hc := r.card_fresh
  have hw := r.window_fresh
  unfold destroy
  by_cases hg : w.gyroAvailable = true
  · simp only [hg, if_true]
    refine ⟨?_, removeEventListener_fresh _ _ _ _ hw le_rfl⟩
    rw [removeEventListener_fresh _ _ w.nextFn _ hc (by omega),
      removeEventListener_fresh _ _ w.nextFn _ hc (by omega),
      removeEventListener_fresh _ _ w.nextFn _ hc (by omega)]
  · simp only [hg, if_false, Bool.false_eq_true, and_true]
    rw [removeEventListener_fresh _ _ w.nextFn _ hc (by omega),
      removeEventListener_fresh _ _ w.nextFn _ hc (by omega),
      removeEventListener_fresh _ _ w.nextFn _ hc (by omega)]

theorem reach_subscribeGyro {p : Platform} {flag : Bool} {w : MTGCard3DTiltEffect}
    (r : Reach p flag w) (hm : p.isMobile = true ∧ flag = true) :
    Reach p flag (subscribeGyro w) := by
  refine
    { settings_eq := r.settings_eq
      isMobile_eq := r.isMobile_eq
      isLightbox_eq := r.isLightbox_eq
      card_eq := r.card_eq
      card_fresh := ?_
      window_fresh := ?_
      window_only := fun _ => hm
      pending_only := fun _ => hm
      gyro_only := fun _ => hm }
  · intro l hl
    have := r.card_fresh l hl
    show l.fn < w.nextFn + 1
    omega
  · intro l hl
    show l.fn < w.nextFn + 1
    simp only [subscribeGyro, addEventListener, List.mem_append, List.mem_singleton] at hl
    rcases hl with hl | hl
    · have := r.window_fresh l hl
      omega
    · subst hl
      exact Nat.lt_succ_self _

theorem reach_construct (el : CardElement) (p : Platform) (flag : Bool) :
    Reach p flag (construct el p flag) := by
  obtain ⟨m, api⟩ := p
  cases m <;> cases flag <;> cases api <;>
    constructor <;>
      simp [construct, init, setupGyro, subscribeGyro, setupEventListeners, setupInitialState,
        requestAnimationFrame, addEventListener, pointerListeners]

theorem reach_step {p : Platform} {flag : Bool} {w : MTGCard3DTiltEffect}
    (r : Reach p flag w) (s : Step) : Reach p flag (step w s) := by
  cases s with
  | cardEvent event rect e => exact r.of_static (static_dispatch _ _ _ _ _ _)
  | windowEvent event o => exact r.of_static (static_dispatch _ _ _ _ _ _)
  | animationFrame => exact r.of_static (static_runFrame w)
  | permission response =>
    show Reach p flag (settlePermission w response)
    unfold settlePermission
    by_cases hp : w.permissionPending = true
    · have hm := r.pending_only hp
      have r2 : Reach p flag { w with permissionPending := false } :=
        { settings_eq := r.settings_eq
          isMobile_eq := r.isMobile_eq
          isLightbox_eq := r.isLightbox_eq
          card_eq := r.card_eq
          card_fresh := r.card_fresh
          window_fresh := r.window_fresh
          window_only := r.window_only
          pending_only := fun _ => hm
          gyro_only := r.gyro_only }
      simp only [hp, if_true]
      cases response with
      | none => exact r2
      | some resp =>
        show Reach p flag (if (resp == "granted") = true then _ else _)
        split
        · exact reach_subscribeGyro r2 hm
        · exact r2
    · simp only [hp, if_false, Bool.false_eq_true]
      exact r
  | destroy =>
    have hd := destroy_listeners r
    show Reach p flag (destroy w)
    have hn : w.nextFn ≤ (destroy w).nextFn := by
      unfold destroy
      by_cases hg : w.gyroAvailable = true
      · simp only [hg, if_true]; omega
      · simp only [hg, if_false, Bool.false_eq_true]; omega
    have hstat : (destroy w).settings = w.settings ∧ (destroy w).isMobile = w.isMobile ∧
        (destroy w).isLightbox = w.isLightbox ∧
        (destroy w).permissionPending = w.permissionPending ∧
        (destroy w).gyroAvailable = w.gyroAvailable := by
      unfold destroy
      by_cases hg : w.gyroAvailable = true
      · simp only [hg, if_true, and_self]
      · simp only [hg, if_false, Bool.false_eq_true, and_self]
    obtain ⟨h1, h2, h3, h4, h5⟩ := hstat
    exact
      { settings_eq := h1 ▸ r.settings_eq
        isMobile_eq := h2 ▸ r.isMobile_eq
        isLightbox_eq := h3 ▸ r.isLightbox_eq
        card_eq := hd.1 ▸ r.card_eq
        card_fresh := by
          rw [hd.1]
          intro l hl
          exact lt_of_lt_of_le (r.card_fresh l hl) hn
        window_fresh := by
          rw [hd.2]
          intro l hl
          exact lt_of_lt_of_le (r.window_fresh l hl) hn
        window_only := by rw [hd.2]; exact r.window_only
        pending_only := by rw [h4]; exact r.pending_only
        gyro_only := by rw [h5]; exact r.gyro_only }

theorem reach_run (el : CardElement) (p : Platform) (flag : Bool) (steps : List Step) :
    Reach p flag (run (construct el p flag) steps) := by
  have key : ∀ (l : List Step) (w : MTGCard3DTiltEffect), Reach p flag w →
      Reach p flag (run w l) := by
    intro l
    induction l with
    | nil => intro w r; exact r
    | cons s l ih => intro w r; exact ih _ (reach_step r s)
  exact key steps _ (reach_construct el p flag)

/-- A frame that runs after one more callback was queued runs it last. -/
theorem runFrame_requestAnimationFrame (w : MTGCard3DTiltEffect) (cb : Frame) :
    runFrame (requestAnimationFrame w cb) = runCallback (runFrame w) cb := by
  simp [runFrame, requestAnimationFrame, List.foldl_append]

theorem settings_runFrame (w : MTGCard3DTiltEffect) : (runFrame w).settings = w.settings :=
  congrArg Prod.fst (static_runFrame w)

/-! ## Facts on binary64 rounding -/

theorem roundNearestEven_intCast (n : ℤ) : roundNearestEven (n : ℚ) = n := by
  simp [roundNearestEven]

theorem roundNearestEven_mono {a b : ℚ} (h : a ≤ b) :
    roundNearestEven a ≤ roundNearestEven b := by
  have hf : ⌊a⌋ ≤ ⌊b⌋ := Int.floor_mono h
  have ha1 := Int.floor_le a
  have ha2 := Int.lt_floor_add_one a
  have hb1 := Int.floor_le b
  have hb2 := Int.lt_floor_add_one b
  rcases hf.lt_or_eq with hlt | heq
  · have h1 : roundNearestEven a ≤ ⌊a⌋ + 1 := by
      unfold roundNearestEven; split_ifs <;> omega
    have h2 : ⌊b⌋ ≤ roundNearestEven b := by
      unfold roundNearestEven; split_ifs <;> omega
    omega
  · unfold roundNearestEven
    rw [← heq]
    split_ifs <;> first | omega | (exfalso; linarith)

theorem ulpExponent_eq {x : ℚ} (E : ℤ) (h1 : 2 ^ E ≤ x) (h2 : x < 2 ^ (E + 1))
    (hE : -1022 ≤ E) : ulpExponent x = E - 52 := by
  have hx : 0 < x := lt_of_lt_of_le (by positivity) h1
  have hlog : Int.log 2 x = E := by
    have a1 : E ≤ Int.log 2 x := by
      rw [← Int.zpow_le_iff_le_log (by norm_num) hx]
      simpa using h1
    have a2 : Int.log 2 x < E + 1 := by
      rw [← Int.lt_zpow_iff_log_lt (by norm_num) hx]
      simpa using h2
    omega
  unfold ulpExponent
  rw [hlog, max_eq_left hE]

theorem roundMagnitude_eq {x : ℚ} (E n : ℤ) (h1 : 2 ^ E ≤ x) (h2 : x < 2 ^ (E + 1))
    (hE : -1022 ≤ E) (hn : roundNearestEven (x / 2 ^ (E - 52)) = n) :
    roundMagnitude x = n * 2 ^ (E - 52) := by
  unfold roundMagnitude
  rw [ulpExponent_eq E h1 h2 hE, hn]

theorem roundMagnitude_zero : roundMagnitude 0 = 0 := by
  simp [roundMagnitude, roundNearestEven]

theorem roundNearestEven_nonneg {x : ℚ} (hx : 0 ≤ x) : 0 ≤ roundNearestEven x := by
  have := roundNearestEven_mono hx
  rwa [show ((0 : ℚ)) = ((0 : ℤ) : ℚ) by norm_num, roundNearestEven_intCast] at this

theorem roundMagnitude_nonneg {x : ℚ} (hx : 0 ≤ x) : 0 ≤ roundMagnitude x := by
  unfold roundMagnitude
  have h1 : 0 ≤ roundNearestEven (x / 2 ^ ulpExponent x) :=
    roundNearestEven_nonneg (div_nonneg hx (by positivity))
  have h2 : (0 : ℚ) ≤ (roundNearestEven (x / 2 ^ ulpExponent x) : ℚ) := by exact_mod_cast h1
  positivity

theorem round64_neg (x : ℚ) : round64 (-x) = -round64 x := by
  unfold round64
  rcases lt_trichotomy x 0 with h | h | h
  · rw [if_neg (by linarith), if_pos h, neg_neg]
  · subst h; simp [roundMagnitude_zero]
  · rw [if_pos (by linarith), if_neg (by linarith), neg_neg]

/-- Exactness: an integer of fewer than 54 bits times a power of two at least `2 ^ (-1074)`
is a double. -/
theorem roundMagnitude_exact (m : ℤ) (k : ℤ) (hm0 : 0 < m) (hm : m < 2 ^ 53) (hk : -1074 ≤ k) :
    roundMagnitude (m * 2 ^ k) = m * 2 ^ k := by
  have hmq : (0 : ℚ) < m := by exact_mod_cast hm0
  have hx : (0 : ℚ) < m * 2 ^ k := by positivity
  have hlt : (m : ℚ) * 2 ^ k < 2 ^ (k + 53) := by
    have : (m : ℚ) < 2 ^ (53 : ℤ) := by exact_mod_cast hm
    rw [zpow_add₀ (by norm_num : (2 : ℚ) ≠ 0), mul_comm]
    exact mul_lt_mul_of_pos_left this (by positivity)
  have hlog : Int.log 2 ((m : ℚ) * 2 ^ k) < k + 53 := by
    rw [← Int.lt_zpow_iff_log_lt (by norm_num) hx]
    simpa using hlt
  have hs : ulpExponent ((m : ℚ) * 2 ^ k) ≤ k := by
    unfold ulpExponent
    have := max_le (show Int.log 2 ((m : ℚ) * 2 ^ k) ≤ k + 52 by omega)
      (show (-1022 : ℤ) ≤ k + 52 by omega)
    omega
  unfold roundMagnitude
  generalize ulpExponent ((m : ℚ) * 2 ^ k) = s at hs ⊢
  obtain ⟨d, hd⟩ : ∃ d : ℕ, k = s + d := ⟨(k - s).toNat, by omega⟩
  have hq : (m : ℚ) * 2 ^ k / 2 ^ s = ((m * 2 ^ d : ℤ) : ℚ) := by
    rw [hd, zpow_add₀ (by norm_num : (2 : ℚ) ≠ 0)]
    push_cast
    field_simp
    ring
  rw [hq, roundNearestEven_intCast, hd, zpow_add₀ (by norm_num : (2 : ℚ) ≠ 0), zpow_natCast]
  push_cast
  ring

theorem round64_exact (m : ℤ) (k : ℤ) (hm : |m| < 2 ^ 53) (hk : -1074 ≤ k) :
    round64 (m * 2 ^ k) = m * 2 ^ k := by
  have hpow : (0 : ℚ) < 2 ^ k := by positivity
  rcases lt_trichotomy m 0 with h | h | h
  · have hneg : (m : ℚ) * 2 ^ k < 0 := by
      have : (m : ℚ) < 0 := by exact_mod_cast h
      exact mul_neg_of_neg_of_pos this hpow
    have hm2 : -m < 2 ^ 53 := by
      have := abs_lt.mp hm
      omega
    rw [round64, if_pos hneg]
    have := roundMagnitude_exact (-m) k (by omega) hm2 hk
    push_cast at this
    rw [neg_mul] at this
    rw [this, neg_neg]
  · subst h
    simp [round64, roundMagnitude_zero]
  · have hpos : ¬ ((m : ℚ) * 2 ^ k < 0) := by
      have : (0 : ℚ) < m := by exact_mod_cast h
      have := mul_pos this hpow
      linarith
    rw [round64, if_neg hpos]
    exact roundMagnitude_exact m k h (abs_lt.mp hm).2 hk

theorem roundMagnitude_mono {x y : ℚ} (hx : 0 ≤ x) (hxy : x ≤ y) :
    roundMagnitude x ≤ roundMagnitude y := by
  rcases hx.lt_or_eq with hpos | h0
  · have hypos : 0 < y := lt_of_lt_of_le hpos hxy
    have hlog : Int.log 2 x ≤ Int.log 2 y := Int.log_mono_right hpos hxy
    have hE : ulpExponent x ≤ ulpExponent y := by
      unfold ulpExponent
      have := max_le_max hlog (le_refl (-1022 : ℤ))
      omega
    rcases hE.lt_or_eq with hlt | heq
    · have hyE : ulpExponent y = Int.log 2 y - 52 := by
        unfold ulpExponent at hlt ⊢
        rcases le_total (Int.log 2 y) (-1022) with h | h
        · rw [max_eq_right h] at hlt
          have := le_max_right (Int.log 2 x) (-1022)
          omega
        · rw [max_eq_left h]
      have hxE : Int.log 2 x ≤ ulpExponent x + 52 := by
        unfold ulpExponent
        have := le_max_left (Int.log 2 x) (-1022)
        omega
      have hxlt : x < 2 ^ (ulpExponent x + 53) := by
        have h1 := Int.lt_zpow_succ_log_self (b := 2) (by norm_num) x
        have h2 : ((2 : ℕ) : ℚ) ^ (Int.log 2 x + 1) ≤ 2 ^ (ulpExponent x + 53) := by
          rw [Nat.cast_ofNat]
          exact zpow_le_zpow_right₀ (by norm_num) (by omega)
        exact lt_of_lt_of_le h1 h2
      have hyge : 2 ^ (ulpExponent y + 52) ≤ y := by
        have h1 := Int.zpow_log_le_self (b := 2) (by norm_num) hypos
        rw [Nat.cast_ofNat] at h1
        rw [hyE]
        simpa using h1
      have hup : roundMagnitude x ≤ 2 ^ (ulpExponent x + 53) := by
        unfold roundMagnitude
        have hq : x / 2 ^ ulpExponent x ≤ ((2 ^ 53 : ℤ) : ℚ) := by
          rw [div_le_iff₀ (by positivity)]
          push_cast
          rw [zpow_add₀ (by norm_num : (2 : ℚ) ≠ 0)] at hxlt
          have : (2 : ℚ) ^ (53 : ℤ) = 2 ^ 53 := by norm_num
          rw [this, mul_comm] at hxlt
          exact le_of_lt hxlt
        have hr := roundNearestEven_mono hq
        rw [roundNearestEven_intCast] at hr
        have hr2 : (roundNearestEven (x / 2 ^ ulpExponent x) : ℚ) ≤ 2 ^ 53 := by
          exact_mod_cast hr
        rw [zpow_add₀ (by norm_num : (2 : ℚ) ≠ 0)]
        have : (2 : ℚ) ^ (53 : ℤ) = 2 ^ 53 := by norm_num
        rw [this, mul_comm ((2 : ℚ) ^ ulpExponent x)]
        exact mul_le_mul_of_nonneg_right hr2 (by positivity)
      have hlow : 2 ^ (ulpExponent y + 52) ≤ roundMagnitude y := by
        unfold roundMagnitude
        have hq : ((2 ^ 52 : ℤ) : ℚ) ≤ y / 2 ^ ulpExponent y := by
          rw [le_div_iff₀ (by positivity)]
          push_cast
          rw [zpow_add₀ (by norm_num : (2 : ℚ) ≠ 0)] at hyge
          have : (2 : ℚ) ^ (52 : ℤ) = 2 ^ 52 := by norm_num
          rw [this, mul_comm] at hyge
          exact hyge
        have hr := roundNearestEven_mono hq
        rw [roundNearestEven_intCast] at hr
        have hr2 : (2 ^ 52 : ℚ) ≤ (roundNearestEven (y / 2 ^ ulpExponent y) : ℚ) := by
          exact_mod_cast hr
        rw [zpow_add₀ (by norm_num : (2 : ℚ) ≠ 0)]
        have : (2 : ℚ) ^ (52 : ℤ) = 2 ^ 52 := by norm_num
        rw [this, mul_comm ((2 : ℚ) ^ ulpExponent y)]
        exact mul_le_mul_of_nonneg_right hr2 (by positivity)
      have hmid : (2 : ℚ) ^ (ulpExponent x + 53) ≤ 2 ^ (ulpExponent y + 52) :=
        zpow_le_zpow_right₀ (by norm_num) (by omega)
      linarith
    · unfold roundMagnitude
      rw [heq]
      have hq : x / 2 ^ ulpExponent y ≤ y / 2 ^ ulpExponent y :=
        div_le_div_of_nonneg_right hxy (by positivity)
      have hr := roundNearestEven_mono hq
      have hr2 : (roundNearestEven (x / 2 ^ ulpExponent y) : ℚ)
          ≤ (roundNearestEven (y / 2 ^ ulpExponent y) : ℚ) := by exact_mod_cast hr
      exact mul_le_mul_of_nonneg_right hr2 (by positivity)
  · rw [← h0, roundMagnitude_zero]
    exact roundMagnitude_nonneg (h0 ▸ hxy)

theorem round64_mono {x y : ℚ} (hxy : x ≤ y) : round64 x ≤ round64 y := by
  unfold round64
  by_cases hx : x < 0
  · by_cases hy : y < 0
    · rw [if_pos hx, if_pos hy]
      have := roundMagnitude_mono (x := -y) (y := -x) (by linarith) (by linarith)
      linarith
    · rw [if_pos hx, if_neg hy]
      have h1 := roundMagnitude_nonneg (x := -x) (by linarith)
      have h2 := roundMagnitude_nonneg (x := y) (by linarith)
      linarith
  · have hy : ¬ y < 0 := by linarith
    rw [if_neg hx, if_neg hy]
    exact roundMagnitude_mono (by linarith) hxy

theorem round64_zero : round64 0 = 0 := by
  simp [round64, roundMagnitude_zero]

theorem round64_one : round64 1 = 1 := by
  have := round64_exact 1 0 (by norm_num) (by norm_num)
  simpa using this

theorem round64_intCast (n : ℤ) (h : |n| < 2 ^ 53) : round64 (n : ℚ) = n := by
  have := round64_exact n 0 h (by norm_num)
  simpa using this

/-- Half of a grid number. -/
theorem grid_half (n g : ℤ) : (n : ℚ) * 2 ^ g / 2 = n * 2 ^ (g - 1) := by
  rw [zpow_sub_one₀ (by norm_num : (2 : ℚ) ≠ 0)]
  ring

/-- On a grid the half-extent, the centre and the offset of the pointer from the centre are
computed without rounding. -/
theorem axis_offset (g t h c : ℤ) (hg : -1000 ≤ g) (ht : |t| ≤ 2 ^ 50) (hh : |h| ≤ 2 ^ 50)
    (hc : |c| ≤ 2 ^ 51) :
    divDouble ((h : ℚ) * 2 ^ g) 2 = h * 2 ^ (g - 1) ∧
    subDouble ((c : ℚ) * 2 ^ g) (addDouble ((t : ℚ) * 2 ^ g) (divDouble ((h : ℚ) * 2 ^ g) 2))
      = ((2 * c - 2 * t - h : ℤ) : ℚ) * 2 ^ (g - 1) := by
  have ht2 := abs_le.mp ht
  have hh2 := abs_le.mp hh
  have hc2 := abs_le.mp hc
  have h1 : divDouble ((h : ℚ) * 2 ^ g) 2 = h * 2 ^ (g - 1) := by
    rw [divDouble, grid_half]
    exact round64_exact h (g - 1) (by rw [abs_lt]; constructor <;> omega) (by omega)
  have hdouble : ∀ n : ℤ, (n : ℚ) * 2 ^ g = ((2 * n : ℤ) : ℚ) * 2 ^ (g - 1) := by
    intro n
    rw [zpow_sub_one₀ (by norm_num : (2 : ℚ) ≠ 0)]
    push_cast
    ring
  have h2 : addDouble ((t : ℚ) * 2 ^ g) ((h : ℚ) * 2 ^ (g - 1))
      = ((2 * t + h : ℤ) : ℚ) * 2 ^ (g - 1) := by
    rw [addDouble, hdouble t, ← add_mul, ← Int.cast_add]
    exact round64_exact (2 * t + h) (g - 1) (by rw [abs_lt]; constructor <;> omega) (by omega)
  refine ⟨h1, ?_⟩
  rw [h1, h2, subDouble, hdouble c, ← sub_mul, ← Int.cast_sub,
    show 2 * c - (2 * t + h) = 2 * c - 2 * t - h by ring]
  exact round64_exact (2 * c - 2 * t - h) (g - 1) (by rw [abs_lt]; constructor <;> omega)
    (by omega)

/-- The angle computed from an exact offset of `p` half-units over a half-extent of `h`
half-units is bounded by the cap, takes the sign of the offset and reaches the cap exactly
at the far edge. -/
theorem axis_angle (g p h : ℤ) (M : ℚ) (hh : 0 < h) (hh2 : h ≤ 2 ^ 50) (hp : |p| ≤ h)
    (hM : round64 M = M) (hM1 : 1 ≤ M) :
    |mulDouble (divDouble ((p : ℚ) * 2 ^ (g - 1)) ((h : ℚ) * 2 ^ (g - 1))) M| ≤ M ∧
    (0 < p → 0 < mulDouble (divDouble ((p : ℚ) * 2 ^ (g - 1)) ((h : ℚ) * 2 ^ (g - 1))) M) ∧
    (p < 0 → mulDouble (divDouble ((p : ℚ) * 2 ^ (g - 1)) ((h : ℚ) * 2 ^ (g - 1))) M < 0) ∧
    (p = h → mulDouble (divDouble ((p : ℚ) * 2 ^ (g - 1)) ((h : ℚ) * 2 ^ (g - 1))) M = M) ∧
    (p = -h →
      mulDouble (divDouble ((p : ℚ) * 2 ^ (g - 1)) ((h : ℚ) * 2 ^ (g - 1))) M = -M) := by
  have hhq : (0 : ℚ) < h := by exact_mod_cast hh
  have hhq2 : (h : ℚ) ≤ 2 ^ 50 := by exact_mod_cast hh2
  have hp2 := abs_le.mp hp
  have hpq1 : -(h : ℚ) ≤ p := by exact_mod_cast hp2.1
  have hpq2 : (p : ℚ) ≤ h := by exact_mod_cast hp2.2
  have hq : (p : ℚ) * 2 ^ (g - 1) / ((h : ℚ) * 2 ^ (g - 1)) = p / h := by
    have : (2 : ℚ) ^ (g - 1) ≠ 0 := by positivity
    field_simp
    ring
  have hMneg : round64 (-M) = -M := by rw [round64_neg, hM]
  have hneg1 : round64 (-1) = -1 := by rw [round64_neg, round64_one]
  have htiny : round64 (2 ^ (-50 : ℤ)) = 2 ^ (-50 : ℤ) := by
    have := round64_exact 1 (-50) (by norm_num) (by norm_num)
    simpa using this
  have htinyneg : round64 (-2 ^ (-50 : ℤ)) = -2 ^ (-50 : ℤ) := by rw [round64_neg, htiny]
  have htpos : (0 : ℚ) < 2 ^ (-50 : ℤ) := by positivity
  have hinv : (2 : ℚ) ^ (-50 : ℤ) ≤ 1 / h := by
    rw [zpow_neg, ← one_div]
    exact one_div_le_one_div_of_le hhq (by exact_mod_cast hhq2)
  simp only [mulDouble, divDouble, hq]
  have hr1 : round64 ((p : ℚ) / h) ≤ 1 := by
    rw [← round64_one]
    exact round64_mono (by rw [div_le_one hhq]; exact hpq2)
  have hr2 : -1 ≤ round64 ((p : ℚ) / h) := by
    rw [← hneg1]
    exact round64_mono (by rw [le_div_iff₀ hhq]; linarith)
  refine ⟨?_, ?_, ?_, ?_, ?_⟩
  · rw [abs_le]
    constructor
    · exact le_trans (le_of_eq hMneg.symm) (round64_mono (by nlinarith))
    · exact le_trans (round64_mono (by nlinarith)) (le_of_eq hM)
  · intro hpos
    have hp1 : (1 : ℚ) ≤ p := by exact_mod_cast hpos
    have hq1 : (2 : ℚ) ^ (-50 : ℤ) ≤ p / h := by
      calc (2 : ℚ) ^ (-50 : ℤ) ≤ 1 / h := hinv
        _ ≤ p / h := div_le_div_of_nonneg_right hp1 (le_of_lt hhq)
    have hr : (2 : ℚ) ^ (-50 : ℤ) ≤ round64 ((p : ℚ) / h) := by
      rw [← htiny]
      exact round64_mono hq1
    have ha : (2 : ℚ) ^ (-50 : ℤ) ≤ round64 (round64 ((p : ℚ) / h) * M) :=
      le_trans (le_of_eq htiny.symm) (round64_mono (by nlinarith))
    linarith
  · intro hneg
    have hp1 : (p : ℚ) ≤ -1 := by exact_mod_cast (show p ≤ -1 by omega)
    have hq1 : (p : ℚ) / h ≤ -2 ^ (-50 : ℤ) := by
      calc (p : ℚ) / h ≤ -1 / h := div_le_div_of_nonneg_right hp1 (le_of_lt hhq)
        _ = -(1 / h) := by ring
        _ ≤ -2 ^ (-50 : ℤ) := by linarith
    have hr : round64 ((p : ℚ) / h) ≤ -2 ^ (-50 : ℤ) := by
      rw [← htinyneg]
      exact round64_mono hq1
    have ha : round64 (round64 ((p : ℚ) / h) * M) ≤ -2 ^ (-50 : ℤ) :=
      le_trans (round64_mono (by nlinarith)) (le_of_eq htinyneg)
    linarith
  · intro hph
    rw [hph, div_self (ne_of_gt hhq), round64_one, one_mul, hM]
  · intro hph
    rw [hph]
    push_cast
    rw [neg_div, div_self (ne_of_gt hhq), hneg1, neg_one_mul, hMneg]

/-- An offset that does not exceed the half-extent, both as computed, gives an angle within
the cap. -/
theorem axis_bound (m d M : ℚ) (hd : 0 < d) (hm : |m| ≤ d) (hM : round64 M = M)
    (hM0 : 0 ≤ M) : |mulDouble (divDouble m d) M| ≤ M := by
  have hm2 := abs_le.mp hm
  have hMneg : round64 (-M) = -M := by rw [round64_neg, hM]
  have hneg1 : round64 (-1) = -1 := by rw [round64_neg, round64_one]
  have hr1 : round64 (m / d) ≤ 1 :=
    le_trans (round64_mono (by rw [div_le_one hd]; exact hm2.2)) (le_of_eq round64_one)
  have hr2 : -1 ≤ round64 (m / d) :=
    le_trans (le_of_eq hneg1.symm) (round64_mono (by rw [le_div_iff₀ hd]; linarith))
  simp only [mulDouble, divDouble]
  rw [abs_le]
  constructor
  · exact le_trans (le_of_eq hMneg.symm) (round64_mono (by nlinarith))
  · exact le_trans (round64_mono (by nlinarith)) (le_of_eq hM)

/-- An offset equal to the half-extent, both as computed, gives the cap exactly. -/
theorem axis_extreme (d M : ℚ) (hd : 0 < d) (hM : round64 M = M) :
    mulDouble (divDouble (-d) d) M = -M ∧ mulDouble (divDouble d d) M = M := by
  have hMneg : round64 (-M) = -M := by rw [round64_neg, hM]
  have hneg1 : round64 (-1) = -1 := by rw [round64_neg, round64_one]
  simp only [mulDouble, divDouble]
  rw [neg_div, div_self (ne_of_gt hd), hneg1, round64_one, neg_one_mul, one_mul, hMneg, hM]
  exact ⟨rfl, rfl⟩

/-- A pointer at the centre the code computes has offset zero on both axes. -/
theorem handleTilt_computed_center (w : MTGCard3DTiltEffect) (rect : Rect) :
    handleTilt w rect
        ⟨addDouble rect.left (divDouble rect.width 2),
          addDouble rect.top (divDouble rect.height 2)⟩
      = updateTransform w 0 0 := by
  simp only [handleTilt, subDouble, sub_self, round64_zero, neg_zero, divDouble, zero_div,
    mulDouble, zero_mul]

/-! ## The claims -/

/-- C7: the constructor picks the settings from the mode flag alone, `true` giving
(20, 1000, 1.05, 150, 75) and `false`, also the default of an omitted flag, giving
(15, 800, 1.03, 100, 50), whatever the element and the platform are, and no later event,
frame, permission settlement or `destroy()` changes them. -/
theorem settings_selected_by_mode_flag (el : CardElement) (p : Platform) (steps : List Step) :
    (construct el p true).settings = ⟨20, 1000, 1.05, 150, 75⟩ ∧
    (construct el p false).settings = ⟨15, 800, 1.03, 100, 50⟩ ∧
    new (some el) p = Except.ok (construct el p false) ∧
    (run (construct el p true) steps).settings = ⟨20, 1000, 1.05, 150, 75⟩ ∧
    (run (construct el p false) steps).settings = ⟨15, 800, 1.03, 100, 50⟩ := by
  have h1 := (reach_run el p true []).settings_eq
  have h2 := (reach_run el p false []).settings_eq
  have h3 := (reach_run el p true steps).settings_eq
  have h4 := (reach_run el p false steps).settings_eq
  simp only [if_true, Bool.false_eq_true, if_false] at h1 h2 h3 h4
  exact ⟨h1, h2, rfl, h3, h4⟩

/-- C9: in every state an instance can reach after construction, each of the three pointer
events has a listener on the card exactly when the instance is not (mobile and lightbox), a
device-orientation listener on `window` exists only when it is mobile and lightbox, and so
the two kinds of listener are never registered together. -/
theorem input_sources_mutually_exclusive (el : CardElement) (p : Platform) (isLightbox : Bool)
    (steps : List Step) :
    hasListener (run (construct el p isLightbox) steps).cardListeners "mouseenter"
      = !(p.isMobile && isLightbox) ∧
    hasListener (run (construct el p isLightbox) steps).cardListeners "mousemove"
      = !(p.isMobile && isLightbox) ∧
    hasListener (run (construct el p isLightbox) steps).cardListeners "mouseleave"
      = !(p.isMobile && isLightbox) ∧
    (hasListener (run (construct el p isLightbox) steps).windowListeners "deviceorientation"
      = true → p.isMobile = true ∧ isLightbox = true) ∧
    ¬ ((run (construct el p isLightbox) steps).cardListeners ≠ [] ∧
        (run (construct el p isLightbox) steps).windowListeners ≠ []) := by
  have r := reach_run el p isLightbox steps
  have hc := r.card_eq
  have hw := r.window_only
  obtain ⟨m, api⟩ := p
  refine ⟨?_, ?_, ?_, ?_, ?_⟩
  · rw [hc]; cases m <;> cases isLightbox <;> simp [pointerListeners, hasListener]
  · rw [hc]; cases m <;> cases isLightbox <;> simp [pointerListeners, hasListener]
  · rw [hc]; cases m <;> cases isLightbox <;> simp [pointerListeners, hasListener]
  · intro h
    apply hw
    intro hnil
    rw [hnil] at h
    simp [hasListener] at h
  · rintro ⟨h1, h2⟩
    have hm := hw h2
    rw [hc] at h1
    simp only at hm
    simp [pointerListeners, hm.1, hm.2] at h1

/-- Witness of C9: a desktop lightbox instance that saw a frame, a granted permission and a
`destroy()`. -/
theorem input_sources_mutually_exclusive_witness :
    hasListener (run (construct ⟨⟨none, "", "", ""⟩, none, none⟩
        ⟨false, OrientationAPI.withRequestPermission⟩ true)
        [Step.animationFrame, Step.permission (some "granted"), Step.destroy]).cardListeners
        "mousemove" = true ∧
    ¬ hasListener (run (construct ⟨⟨none, "", "", ""⟩, none, none⟩
        ⟨false, OrientationAPI.withRequestPermission⟩ true)
        [Step.animationFrame, Step.permission (some "granted"), Step.destroy]).windowListeners
        "deviceorientation" = true := by
  have h := input_sources_mutually_exclusive ⟨⟨none, "", "", ""⟩, none, none⟩
    ⟨false, OrientationAPI.withRequestPermission⟩ true
    [Step.animationFrame, Step.permission (some "granted"), Step.destroy]
  refine ⟨h.2.1, fun hw => ?_⟩
  have := (h.2.2.2.1 hw).1
  simp at this

/-- C8 (the code does otherwise): on a mobile lightbox instance whose orientation source is
active, `destroy()` leaves the `deviceorientation` listener on `window` registered, and a
later orientation event still queues a transform update that the next frame applies. -/
theorem destroy_keeps_orientation_listener :
    (construct ⟨⟨none, "", "", ""⟩, none, none⟩ ⟨true, OrientationAPI.available⟩ true).gyroAvailable
      = true ∧
    (construct ⟨⟨none, "", "", ""⟩, none, none⟩ ⟨true, OrientationAPI.available⟩ true).windowListeners
      = [⟨"deviceorientation", 0, Handler.gyro⟩] ∧
    (destroy (construct ⟨⟨none, "", "", ""⟩, none, none⟩
      ⟨true, OrientationAPI.available⟩ true)).windowListeners
      = [⟨"deviceorientation", 0, Handler.gyro⟩] ∧
    (run (construct ⟨⟨none, "", "", ""⟩, none, none⟩ ⟨true, OrientationAPI.available⟩ true)
      [Step.animationFrame, Step.destroy,
        Step.windowEvent "deviceorientation" ⟨some 45, some 45⟩]).frames
      = [Frame.transform 10 20] ∧
    (run (construct ⟨⟨none, "", "", ""⟩, none, none⟩ ⟨true, OrientationAPI.available⟩ true)
      [Step.animationFrame, Step.destroy,
        Step.windowEvent "deviceorientation" ⟨some 45, some 45⟩,
        Step.animationFrame]).card.transform
      = some ⟨1000, 10, 20, 1.05, 1.05, 1.05⟩ := by
  refine ⟨rfl, rfl, ?_, ?_, ?_⟩
  · simp [construct, init, setupGyro, subscribeGyro, setupEventListeners, setupInitialState,
      requestAnimationFrame, addEventListener, destroy, removeEventListener]
  · simp [run, step, construct, init, setupGyro, subscribeGyro, setupEventListeners,
      setupInitialState, requestAnimationFrame, addEventListener, destroy, removeEventListener,
      runFrame, runCallback, dispatch, callHandler, handleGyro, updateTransform]
    norm_num
  · simp [run, step, construct, init, setupGyro, subscribeGyro, setupEventListeners,
      setupInitialState, requestAnimationFrame, addEventListener, destroy, removeEventListener,
      runFrame, runCallback, dispatch, callHandler, handleGyro, updateTransform]
    norm_num

/-- C10: an orientation event whose `beta` or `gamma` is `null` makes `handleGyro` return
with the whole state (card transform, both overlays, frame queue) unchanged; with
`gyroAvailable` true and both values present it queues exactly one transform update and
changes nothing else. -/
theorem handleGyro_skips_missing_axis (w : MTGCard3DTiltEffect) (event : DeviceOrientationEvent) :
    ((event.beta = none ∨ event.gamma = none) →
      handleGyro w event = w ∧ runFrame (handleGyro w event) = runFrame w) ∧
    (w.gyroAvailable = true → ∀ beta gamma : ℚ, event.beta = some beta →
      event.gamma = some gamma →
      ∃ angleX angleY : ℚ,
        handleGyro w event = { w with frames := w.frames ++ [Frame.transform angleX angleY] } ∧
        (handleGyro w event).frames.length = w.frames.length + 1) := by
  obtain ⟨b, g⟩ := event
  constructor
  · intro h
    have : handleGyro w ⟨b, g⟩ = w := by
      unfold handleGyro
      split
      · rfl
      · rcases h with h | h <;> simp only at h <;> subst h
        · rfl
        · cases b <;> rfl
    rw [this]
    exact ⟨rfl, rfl⟩
  · intro hg beta gamma hb hgm
    simp only at hb hgm
    subst hb hgm
    refine ⟨max (-90) (min beta 90) / 90 * w.settings.tiltEffectMaxRotation,
      max (-45) (min gamma 45) / 45 * w.settings.tiltEffectMaxRotation, ?_, ?_⟩
    · simp only [handleGyro, hg, Bool.not_true, Bool.false_eq_true, if_false, updateTransform,
        requestAnimationFrame]
    · simp [handleGyro, hg, updateTransform, requestAnimationFrame]

/-- Witness of C10: a sample without `gamma` on an active instance is dropped, a complete
sample queues one update. -/
theorem handleGyro_skips_missing_axis_witness :
    handleGyro (construct ⟨⟨none, "", "", ""⟩, none, none⟩ ⟨true, OrientationAPI.available⟩ true)
        ⟨some 30, none⟩
      = construct ⟨⟨none, "", "", ""⟩, none, none⟩ ⟨true, OrientationAPI.available⟩ true ∧
    (handleGyro (construct ⟨⟨none, "", "", ""⟩, none, none⟩ ⟨true, OrientationAPI.available⟩ true)
        ⟨some 30, some 15⟩).frames.length = 2 := by
  constructor
  · exact ((handleGyro_skips_missing_axis _ ⟨some 30, none⟩).1 (Or.inr rfl)).1
  · obtain ⟨_, _, _, h⟩ := (handleGyro_skips_missing_axis
      (construct ⟨⟨none, "", "", ""⟩, none, none⟩ ⟨true, OrientationAPI.available⟩ true)
      ⟨some 30, some 15⟩).2 rfl 30 15 rfl rfl
    exact h

/-- C2: `handleGyro` clamps exactly: any `beta ≥ 90` gives the state `beta = 90` gives, any
`beta ≤ -90` the one of `-90`, any `gamma ≤ -45` the one of `-45`, any `gamma ≥ 45` the one of
`45` (so 120 acts as 90 and -60 as -45); with `gyroAvailable` true and both angles inside
their ranges the update queued is the one for `beta / 90 * maxRotation` and
`gamma / 45 * maxRotation`. -/
theorem handleGyro_clamping_exact (w : MTGCard3DTiltEffect) (beta gamma : ℚ) :
    (90 ≤ beta → handleGyro w ⟨some beta, some gamma⟩ = handleGyro w ⟨some 90, some gamma⟩) ∧
    (beta ≤ -90 → handleGyro w ⟨some beta, some gamma⟩ = handleGyro w ⟨some (-90), some gamma⟩) ∧
    (gamma ≤ -45 → handleGyro w ⟨some beta, some gamma⟩ = handleGyro w ⟨some beta, some (-45)⟩) ∧
    (45 ≤ gamma → handleGyro w ⟨some beta, some gamma⟩ = handleGyro w ⟨some beta, some 45⟩) ∧
    handleGyro w ⟨some 120, some gamma⟩ = handleGyro w ⟨some 90, some gamma⟩ ∧
    handleGyro w ⟨some beta, some (-60)⟩ = handleGyro w ⟨some beta, some (-45)⟩ ∧
    (w.gyroAvailable = true → -90 ≤ beta → beta ≤ 90 → -45 ≤ gamma → gamma ≤ 45 →
      handleGyro w ⟨some beta, some gamma⟩ =
        updateTransform w (beta / 90 * w.settings.tiltEffectMaxRotation)
          (gamma / 45 * w.settings.tiltEffectMaxRotation)) := by
  have hb : ∀ b : ℚ, 90 ≤ b → max (-90) (min b 90) = max (-90 : ℚ) (min 90 90) := by
    intro b h
    rw [min_eq_right h, min_self]
  have hb2 : ∀ b : ℚ, b ≤ -90 → max (-90) (min b 90) = max (-90 : ℚ) (min (-90) 90) := by
    intro b h
    rw [min_eq_left (by linarith), max_eq_left h, min_eq_left (by norm_num), max_self]
  have hg : ∀ g : ℚ, g ≤ -45 → max (-45) (min g 45) = max (-45 : ℚ) (min (-45) 45) := by
    intro g h
    rw [min_eq_left (by linarith), max_eq_left h, min_eq_left (by norm_num), max_self]
  have hg2 : ∀ g : ℚ, 45 ≤ g → max (-45) (min g 45) = max (-45 : ℚ) (min 45 45) := by
    intro g h
    rw [min_eq_right h, min_self]
  refine ⟨?_, ?_, ?_, ?_, ?_, ?_, ?_⟩
  · intro h; simp only [handleGyro, hb beta h]
  · intro h; simp only [handleGyro, hb2 beta h]
  · intro h; simp only [handleGyro, hg gamma h]
  · intro h; simp only [handleGyro, hg2 gamma h]
  · simp only [handleGyro, hb 120 (by norm_num)]
  · simp only [handleGyro, hg (-60) (by norm_num)]
  · intro ha h1 h2 h3 h4
    simp only [handleGyro, ha, Bool.not_true, Bool.false_eq_true, if_false,
      min_eq_left h2, max_eq_right h1, min_eq_left h4, max_eq_right h3]

/-- Witness of C2: on an active lightbox instance `beta = 100` acts as `beta = 90`, and the
in-range sample (45, 9) queues the update for (45 / 90 * 20, 9 / 45 * 20). -/
theorem handleGyro_clamping_exact_witness :
    handleGyro (construct ⟨⟨none, "", "", ""⟩, none, none⟩ ⟨true, OrientationAPI.available⟩ true)
        ⟨some 100, some 9⟩
      = handleGyro
        (construct ⟨⟨none, "", "", ""⟩, none, none⟩ ⟨true, OrientationAPI.available⟩ true)
        ⟨some 90, some 9⟩ ∧
    handleGyro (construct ⟨⟨none, "", "", ""⟩, none, none⟩ ⟨true, OrientationAPI.available⟩ true)
        ⟨some 45, some 9⟩
      = updateTransform
        (construct ⟨⟨none, "", "", ""⟩, none, none⟩ ⟨true, OrientationAPI.available⟩ true)
        (45 / 90 * (construct ⟨⟨none, "", "", ""⟩, none, none⟩
          ⟨true, OrientationAPI.available⟩ true).settings.tiltEffectMaxRotation)
        (9 / 45 * (construct ⟨⟨none, "", "", ""⟩, none, none⟩
          ⟨true, OrientationAPI.available⟩ true).settings.tiltEffectMaxRotation) :=
  ⟨(handleGyro_clamping_exact _ 100 9).1 (by norm_num),
    (handleGyro_clamping_exact _ 45 9).2.2.2.2.2.2 rfl (by norm_num) (by norm_num)
      (by norm_num) (by norm_num)⟩

/-- C3: `updateShineEffect` writes `translate(-angleY * range %, -angleX * range %)` and
opacity 1; hence, in every reachable state of either mode, after the frame of
`updateTransform w angleX angleY` each overlay is translated by minus
(angle / maxRotation) times its own range (150 or 100 for the shine, 75 or 50 for the rainbow
shine), with opacity 1.  The direction pair (0.5, -0.2) with range 100 gives
`translate(20%, -50%)`. -/
theorem overlay_translation_negates_direction (el : CardElement) (p : Platform) (flag : Bool)
    (steps : List Step) (element : OverlayStyle) (angleX angleY range : ℚ) :
    (updateShineEffect element angleX angleY range).transform
      = some ⟨-angleY * range, -angleX * range⟩ ∧
    (updateShineEffect element angleX angleY range).opacity = "1" ∧
    (runFrame (updateTransform (run (construct el p flag) steps) angleX angleY)).shine.transform
      = some ⟨-(angleY / (if flag then 20 else 15)) * (if flag then 150 else 100),
          -(angleX / (if flag then 20 else 15)) * (if flag then 150 else 100)⟩ ∧
    (runFrame (updateTransform (run (construct el p flag) steps) angleX angleY)).shine.opacity
      = "1" ∧
    (runFrame (updateTransform (run (construct el p flag) steps)
        angleX angleY)).rainbowShine.transform
      = some ⟨-(angleY / (if flag then 20 else 15)) * (if flag then 75 else 50),
          -(angleX / (if flag then 20 else 15)) * (if flag then 75 else 50)⟩ ∧
    (runFrame (updateTransform (run (construct el p flag) steps)
        angleX angleY)).rainbowShine.opacity = "1" ∧
    (updateShineEffect element 0.5 (-0.2) 100).transform = some ⟨20, -50⟩ := by
  have hset := (reach_run el p flag steps).settings_eq
  generalize run (construct el p flag) steps = w at hset ⊢
  have hs : (runFrame w).settings = _ := (settings_runFrame w).trans hset
  refine ⟨rfl, rfl, ?_, ?_, ?_, ?_, ?_⟩
  · rw [updateTransform, runFrame_requestAnimationFrame]
    simp only [runCallback, updateShineEffect, hs]
  · rw [updateTransform, runFrame_requestAnimationFrame]
    rfl
  · rw [updateTransform, runFrame_requestAnimationFrame]
    simp only [runCallback, updateShineEffect, hs]
  · rw [updateTransform, runFrame_requestAnimationFrame]
    rfl
  · simp only [updateShineEffect, Option.some.injEq, Translate.mk.injEq]
    norm_num

/-- The card transform after the frame of an `updateTransform`. -/
theorem card_runFrame_updateTransform (w : MTGCard3DTiltEffect) (angleX angleY : ℚ) :
    (runFrame (updateTransform w angleX angleY)).card.transform
      = some ⟨w.settings.tiltEffectPerspective, angleX, angleY, w.settings.tiltEffectScale,
          w.settings.tiltEffectScale, w.settings.tiltEffectScale⟩ := by
  rw [updateTransform, runFrame_requestAnimationFrame]
  simp only [runCallback, settings_runFrame]

/-- Order of grid numbers is the order of their integer coordinates. -/
theorem grid_le (g n m : ℤ) : (n : ℚ) * 2 ^ g ≤ m * 2 ^ g ↔ n ≤ m := by
  rw [mul_le_mul_right (by positivity : (0 : ℚ) < 2 ^ g)]
  exact Int.cast_le

theorem grid_lt (g n m : ℤ) : (n : ℚ) * 2 ^ g < m * 2 ^ g ↔ n < m := by
  rw [mul_lt_mul_right (by positivity : (0 : ℚ) < 2 ^ g)]
  exact Int.cast_lt

theorem grid_abs_le (g n : ℤ) (h : |(n : ℚ) * 2 ^ g| ≤ 2 ^ 50 * 2 ^ g) : |n| ≤ 2 ^ 50 := by
  rw [abs_mul, abs_of_pos (by positivity : (0 : ℚ) < 2 ^ g),
    mul_le_mul_right (by positivity : (0 : ℚ) < 2 ^ g)] at h
  exact_mod_cast h

/-- The two angles of `handleTilt` on a grid, by the integer coordinates. -/
theorem handleTilt_on_grid (w : MTGCard3DTiltEffect) (g l t wd ht cx cy : ℤ)
    (hg : -1000 ≤ g) (hl : |l| ≤ 2 ^ 50) (htop : |t| ≤ 2 ^ 50)
    (hw1 : 0 < wd) (hw2 : wd ≤ 2 ^ 50) (hh1 : 0 < ht) (hh2 : ht ≤ 2 ^ 50)
    (hx1 : l ≤ cx) (hx2 : cx ≤ l + wd) (hy1 : t ≤ cy) (hy2 : cy ≤ t + ht) :
    handleTilt w ⟨l * 2 ^ g, t * 2 ^ g, wd * 2 ^ g, ht * 2 ^ g⟩ ⟨cx * 2 ^ g, cy * 2 ^ g⟩
      = updateTransform w
          (mulDouble (divDouble (((2 * cy - 2 * t - ht : ℤ) : ℚ) * 2 ^ (g - 1))
            ((ht : ℚ) * 2 ^ (g - 1))) w.settings.tiltEffectMaxRotation)
          (mulDouble (divDouble (((-(2 * cx - 2 * l - wd) : ℤ) : ℚ) * 2 ^ (g - 1))
            ((wd : ℚ) * 2 ^ (g - 1))) w.settings.tiltEffectMaxRotation) := by
  have hl2 := abs_le.mp hl
  have ht2 := abs_le.mp htop
  have ox := axis_offset g l wd cx hg hl (by rw [abs_le]; constructor <;> omega)
    (by rw [abs_le]; constructor <;> omega)
  have oy := axis_offset g t ht cy hg htop (by rw [abs_le]; constructor <;> omega)
    (by rw [abs_le]; constructor <;> omega)
  have ox2 := ox.2
  have oy2 := oy.2
  rw [ox.1] at ox2
  rw [oy.1] at oy2
  simp only [handleTilt, ox.1, oy.1, ox2, oy2, Int.cast_neg, neg_mul]

/-- Evaluation of `round64` at a number that is a double. -/
theorem round64_eq_self (x : ℚ) (m k : ℤ) (hx : x = m * 2 ^ k) (hm : |m| < 2 ^ 53)
    (hk : -1074 ≤ k) : round64 x = x := by
  rw [hx]
  exact round64_exact m k hm hk

/-- Evaluation of `round64` at a positive number of the binade of `2 ^ E`. -/
theorem round64_of_pos (x y : ℚ) (E n : ℤ) (h1 : 2 ^ E ≤ x) (h2 : x < 2 ^ (E + 1))
    (hE : -1022 ≤ E) (hn : roundNearestEven (x / 2 ^ (E - 52)) = n)
    (hy : y = n * 2 ^ (E - 52)) : round64 x = y := by
  have hx : 0 < x := lt_of_lt_of_le (by positivity) h1
  rw [round64, if_neg (by linarith), roundMagnitude_eq E n h1 h2 hE hn, hy]

/-- Evaluation of `round64` at a negative number. -/
theorem round64_of_neg (x y : ℚ) (E n : ℤ) (h1 : 2 ^ E ≤ -x) (h2 : -x < 2 ^ (E + 1))
    (hE : -1022 ≤ E) (hn : roundNearestEven (-x / 2 ^ (E - 52)) = n)
    (hy : y = -(n * 2 ^ (E - 52))) : round64 x = y := by
  have hx : 0 < -x := lt_of_lt_of_le (by positivity) h1
  rw [round64, if_pos (by linarith), roundMagnitude_eq E n h1 h2 hE hn, hy]

/-- The corner of a card at top 10.5 with the fractional height 107.3 (the double
`7550566250263347 / 2 ^ 46`): the centre `10.5 + 53.65` falls midway between two doubles and
is rounded up, and the vertical offset of the corner, divided by half the height, is
`-(1 + 2 ^ (-52))`. -/
theorem handleTilt_fractional_corner (w : MTGCard3DTiltEffect) :
    handleTilt w ⟨0, 21 / 2, 300, 7550566250263347 / 70368744177664⟩ ⟨0, 21 / 2⟩
      = updateTransform w
          (mulDouble (-4503599627370497 / 4503599627370496) w.settings.tiltEffectMaxRotation)
          (mulDouble 1 w.settings.tiltEffectMaxRotation) := by
  have f1 : round64 (300 / 2) = 150 := by
    rw [round64_eq_self _ 150 0 (by norm_num) (by norm_num) (by norm_num)]
    norm_num
  have f2 : round64 (0 + 150) = 150 := by
    rw [round64_eq_self _ 150 0 (by norm_num) (by norm_num) (by norm_num)]
    norm_num
  have f3 : round64 (0 - 150) = -150 := by
    rw [round64_eq_self _ (-150) 0 (by norm_num) (by norm_num) (by norm_num)]
    norm_num
  have f4 : round64 (- -150 / 150) = 1 := by
    rw [round64_eq_self _ 1 0 (by norm_num) (by norm_num) (by norm_num)]
    norm_num
  have g1 : round64 (7550566250263347 / 70368744177664 / 2)
      = 7550566250263347 / 140737488355328 := by
    rw [round64_eq_self _ 7550566250263347 (-47) (by norm_num) (by norm_num) (by norm_num)]
    norm_num
  have g2 : round64 (21 / 2 + 7550566250263347 / 140737488355328)
      = 2257077469498573 / 35184372088832 :=
    round64_of_pos _ _ 6 4514154938997146 (by norm_num) (by norm_num) (by norm_num)
      (by norm_num [roundNearestEven]) (by norm_num)
  have g3 : round64 (21 / 2 - 2257077469498573 / 35184372088832)
      = -1887641562565837 / 35184372088832 := by
    rw [round64_eq_self _ (-1887641562565837) (-45) (by norm_num) (by norm_num) (by norm_num)]
    norm_num
  have g4 : round64 (-1887641562565837 / 35184372088832
      / (7550566250263347 / 140737488355328))
      = -4503599627370497 / 4503599627370496 :=
    round64_of_neg _ _ 0 4503599627370497 (by norm_num) (by norm_num) (by norm_num)
      (by norm_num [roundNearestEven]) (by norm_num)
  simp only [handleTilt, addDouble, subDouble, divDouble, f1, f2, f3, f4, g1, g2, g3, g4]

/-- The pointer position (150, 100) is the centre the code computes for a 300 by 200 card
at the origin. -/
theorem handleTilt_center_300_200 (w : MTGCard3DTiltEffect) :
    handleTilt w ⟨0, 0, 300, 200⟩ ⟨150, 100⟩ = updateTransform w 0 0 := by
  have c1 : addDouble 0 (divDouble 300 2) = 150 := by
    have a : divDouble 300 2 = 150 := by
      rw [divDouble, round64_eq_self _ 150 0 (by norm_num) (by norm_num) (by norm_num)]
      norm_num
    rw [a, addDouble, round64_eq_self _ 150 0 (by norm_num) (by norm_num) (by norm_num)]
    norm_num
  have c2 : addDouble 0 (divDouble 200 2) = 100 := by
    have a : divDouble 200 2 = 100 := by
      rw [divDouble, round64_eq_self _ 100 0 (by norm_num) (by norm_num) (by norm_num)]
      norm_num
    rw [a, addDouble, round64_eq_self _ 100 0 (by norm_num) (by norm_num) (by norm_num)]
    norm_num
  have h := handleTilt_computed_center w ⟨0, 0, 300, 200⟩
  simp only [c1, c2] at h
  exact h

/-- C1 as stated fails: on a card at left 0, top 10.5 of width 300 and height 107.3 (as a
double, `7550566250263347 / 2 ^ 46`) in normal mode, a pointer at the corner (0, 10.5), which
lies in the rectangle, gives `angleX = -4222124650659841 / 2 ^ 48`, about
-15.000000000000004, whose absolute value exceeds the cap 15. -/
theorem handleTilt_exceeds_cap_on_fractional_rect :
    round64 (1073 / 10) = 7550566250263347 / 70368744177664 ∧
    (21 / 2 : ℚ) ≤ 21 / 2 + 7550566250263347 / 70368744177664 ∧
    handleTilt (construct ⟨⟨none, "", "", ""⟩, none, none⟩ ⟨false, OrientationAPI.undefined⟩ false)
        ⟨0, 21 / 2, 300, 7550566250263347 / 70368744177664⟩ ⟨0, 21 / 2⟩
      = updateTransform
          (construct ⟨⟨none, "", "", ""⟩, none, none⟩ ⟨false, OrientationAPI.undefined⟩ false)
          (-4222124650659841 / 281474976710656) 15 ∧
    (construct ⟨⟨none, "", "", ""⟩, none, none⟩
      ⟨false, OrientationAPI.undefined⟩ false).settings.tiltEffectMaxRotation = 15 ∧
    ¬ |(-4222124650659841 / 281474976710656 : ℚ)| ≤ 15 := by
  have hM : (construct ⟨⟨none, "", "", ""⟩, none, none⟩
      ⟨false, OrientationAPI.undefined⟩ false).settings.tiltEffectMaxRotation = 15 := rfl
  have a1 : mulDouble (-4503599627370497 / 4503599627370496) 15
      = -4222124650659841 / 281474976710656 :=
    round64_of_neg _ _ 3 8444249301319682 (by norm_num) (by norm_num) (by norm_num)
      (by norm_num [roundNearestEven]) (by norm_num)
  have a2 : mulDouble 1 15 = 15 := by
    rw [mulDouble, round64_eq_self _ 15 0 (by norm_num) (by norm_num) (by norm_num)]
    norm_num
  refine ⟨?_, by norm_num, ?_, hM, ?_⟩
  · exact round64_of_pos _ _ 6 7550566250263347 (by norm_num) (by norm_num) (by norm_num)
      (by norm_num [roundNearestEven]) (by norm_num)
  · rw [handleTilt_fractional_corner, hM, a1, a2]
  · rw [abs_le]
    norm_num

/-- C1, amended: for a rectangle of positive width and height and a pointer inside it whose
coordinates all lie on one grid of step `2 ^ g` (integers when `g = 0`), the origin and the
extent of the rectangle being at most `2 ^ 50` steps, and either preset, the angle pair
`handleTilt` hands to `updateTransform` is bounded in absolute value by
`tiltEffectMaxRotation` (20 or 15) on each axis; `angleX` is positive when the pointer is
strictly below the centre and `angleY` negative when it is strictly right of it.  For any
rectangle and pointer the two bounds hold whenever the offsets of the pointer from the
centre do not exceed half the width and half the height, all as the code computes them. -/
theorem handleTilt_angles_bounded (el : CardElement) (p : Platform) (flag : Bool)
    (steps : List Step) (g : ℤ) (rect : Rect) (e : MouseEvent) (hgrid : OnGrid g rect e)
    (hw : 0 < rect.width) (hh : 0 < rect.height)
    (hx1 : rect.left ≤ e.clientX) (hx2 : e.clientX ≤ rect.left + rect.width)
    (hy1 : rect.top ≤ e.clientY) (hy2 : e.clientY ≤ rect.top + rect.height) :
    (∃ angleX angleY : ℚ,
      handleTilt (run (construct el p flag) steps) rect e
        = updateTransform (run (construct el p flag) steps) angleX angleY ∧
      (run (construct el p flag) steps).settings.tiltEffectMaxRotation
        = (if flag then 20 else 15) ∧
      |angleX| ≤ (run (construct el p flag) steps).settings.tiltEffectMaxRotation ∧
      |angleY| ≤ (run (construct el p flag) steps).settings.tiltEffectMaxRotation ∧
      (rect.top + rect.height / 2 < e.clientY → 0 < angleX) ∧
      (rect.left + rect.width / 2 < e.clientX → angleY < 0)) ∧
    ∀ (r : Rect) (e2 : MouseEvent), 0 < divDouble r.width 2 → 0 < divDouble r.height 2 →
      |subDouble e2.clientX (addDouble r.left (divDouble r.width 2))| ≤ divDouble r.width 2 →
      |subDouble e2.clientY (addDouble r.top (divDouble r.height 2))| ≤ divDouble r.height 2 →
      ∃ angleX angleY : ℚ,
        handleTilt (run (construct el p flag) steps) r e2
          = updateTransform (run (construct el p flag) steps) angleX angleY ∧
        |angleX| ≤ (run (construct el p flag) steps).settings.tiltEffectMaxRotation ∧
        |angleY| ≤ (run (construct el p flag) steps).settings.tiltEffectMaxRotation := by
  have hset := (reach_run el p flag steps).settings_eq
  generalize run (construct el p flag) steps = w at hset ⊢
  have hM : w.settings.tiltEffectMaxRotation = (if flag then 20 else 15) := by rw [hset]
  have hMr : round64 w.settings.tiltEffectMaxRotation = w.settings.tiltEffectMaxRotation := by
    rw [hM]
    cases flag
    · exact round64_eq_self _ 15 0 (by norm_num) (by norm_num) (by norm_num)
    · exact round64_eq_self _ 20 0 (by norm_num) (by norm_num) (by norm_num)
  have hM1 : 1 ≤ w.settings.tiltEffectMaxRotation := by
    rw [hM]; split <;> norm_num
  refine ⟨?_, fun r e2 hdw hdh hmx hmy =>
    ⟨_, _, rfl, axis_bound _ _ _ hdh hmy hMr (by linarith),
      axis_bound _ _ _ hdw (by rwa [abs_neg]) hMr (by linarith)⟩⟩
  obtain ⟨hg1, hg2, ⟨l, hl⟩, ⟨t, ht⟩, ⟨wd, hwd⟩, ⟨hgt, hhgt⟩, ⟨cx, hcx⟩, ⟨cy, hcy⟩, bl, bt, bw,
    bh⟩ := hgrid
  obtain ⟨rl, rt, rwd, rh⟩ := rect
  obtain ⟨ex, ey⟩ := e
  simp only at hl ht hwd hhgt hcx hcy bl bt bw bh hw hh hx1 hx2 hy1 hy2 ⊢
  subst hl ht hwd hhgt hcx hcy
  have il : |l| ≤ 2 ^ 50 := grid_abs_le g l bl
  have it : |t| ≤ 2 ^ 50 := grid_abs_le g t bt
  have iw1 : 0 < wd := by
    have := (grid_lt g 0 wd).mp (by simpa using hw)
    exact this
  have ih1 : 0 < hgt := by
    have := (grid_lt g 0 hgt).mp (by simpa using hh)
    exact this
  have iw2 : wd ≤ 2 ^ 50 := by
    have := (grid_le g wd (2 ^ 50)).mp (by simpa using bw)
    exact this
  have ih2 : hgt ≤ 2 ^ 50 := by
    have := (grid_le g hgt (2 ^ 50)).mp (by simpa using bh)
    exact this
  have ix1 : l ≤ cx := (grid_le g l cx).mp hx1
  have ix2 : cx ≤ l + wd := by
    rw [← add_mul, ← Int.cast_add] at hx2
    exact (grid_le g cx (l + wd)).mp hx2
  have iy1 : t ≤ cy := (grid_le g t cy).mp hy1
  have iy2 : cy ≤ t + hgt := by
    rw [← add_mul, ← Int.cast_add] at hy2
    exact (grid_le g cy (t + hgt)).mp hy2
  have hax := axis_angle g (2 * cy - 2 * t - hgt) hgt w.settings.tiltEffectMaxRotation ih1 ih2
    (by rw [abs_le]; constructor <;> omega) hMr hM1
  have hay := axis_angle g (-(2 * cx - 2 * l - wd)) wd w.settings.tiltEffectMaxRotation iw1 iw2
    (by rw [abs_le]; constructor <;> omega) hMr hM1
  refine ⟨_, _, handleTilt_on_grid w g l t wd hgt cx cy hg1 il it iw1 iw2 ih1 ih2 ix1 ix2 iy1
    iy2, hM, hax.1, hay.1, ?_, ?_⟩
  · intro hbelow
    apply hax.2.1
    have h2 : ((2 * t + hgt : ℤ) : ℚ) * 2 ^ g < ((2 * cy : ℤ) : ℚ) * 2 ^ g := by
      push_cast
      linarith
    have := (grid_lt g _ _).mp h2
    omega
  · intro hright
    apply hay.2.2.1
    have h2 : ((2 * l + wd : ℤ) : ℚ) * 2 ^ g < ((2 * cx : ℤ) : ℚ) * 2 ^ g := by
      push_cast
      linarith
    have := (grid_lt g _ _).mp h2
    omega

/-- Witness of C1, amended: a 300 by 200 card at the origin, normal mode, integer grid,
pointer at (200, 150). -/
theorem handleTilt_angles_bounded_witness :
    ∃ angleX angleY : ℚ,
      handleTilt (run (construct ⟨⟨none, "", "", ""⟩, none, none⟩
          ⟨false, OrientationAPI.undefined⟩ false) []) ⟨0, 0, 300, 200⟩ ⟨200, 150⟩
        = updateTransform (run (construct ⟨⟨none, "", "", ""⟩, none, none⟩
          ⟨false, OrientationAPI.undefined⟩ false) []) angleX angleY ∧
      |angleX| ≤ 15 ∧ |angleY| ≤ 15 ∧ 0 < angleX ∧ angleY < 0 := by
  have hgrid : OnGrid 0 ⟨0, 0, 300, 200⟩ ⟨200, 150⟩ :=
    { step_ge := by norm_num
      step_le := by norm_num
      left_mul := ⟨0, by norm_num⟩
      top_mul := ⟨0, by norm_num⟩
      width_mul := ⟨300, by norm_num⟩
      height_mul := ⟨200, by norm_num⟩
      clientX_mul := ⟨200, by norm_num⟩
      clientY_mul := ⟨150, by norm_num⟩
      left_le := by norm_num
      top_le := by norm_num
      width_le := by norm_num
      height_le := by norm_num }
  obtain ⟨⟨ax, ay, h, hM, hx, hy, hpos, hneg⟩, -⟩ :=
    handleTilt_angles_bounded ⟨⟨none, "", "", ""⟩, none, none⟩
      ⟨false, OrientationAPI.undefined⟩ false [] 0 ⟨0, 0, 300, 200⟩ ⟨200, 150⟩ hgrid
      (by norm_num) (by norm_num) (by norm_num) (by norm_num) (by norm_num) (by norm_num)
  rw [hM] at hx hy
  exact ⟨ax, ay, h, by simpa using hx, by simpa using hy, hpos (by norm_num),
    hneg (by norm_num)⟩

/-- C6 as stated fails: on a card at left 0, top 10.5 of width 300 and height 107.3 (as a
double, `7550566250263347 / 2 ^ 46`) in lightbox mode, a pointer move at the top-left corner
(0, 10.5) gives `angleX = -5629499534213121 / 2 ^ 48`, about -20.000000000000004, not
`-tiltEffectMaxRotation = -20`. -/
theorem handleTilt_corner_misses_cap_on_fractional_rect :
    handleTilt (construct ⟨⟨none, "", "", ""⟩, none, none⟩ ⟨false, OrientationAPI.undefined⟩ true)
        ⟨0, 21 / 2, 300, 7550566250263347 / 70368744177664⟩ ⟨0, 21 / 2⟩
      = updateTransform
          (construct ⟨⟨none, "", "", ""⟩, none, none⟩ ⟨false, OrientationAPI.undefined⟩ true)
          (-5629499534213121 / 281474976710656) 20 ∧
    (construct ⟨⟨none, "", "", ""⟩, none, none⟩
      ⟨false, OrientationAPI.undefined⟩ true).settings.tiltEffectMaxRotation = 20 ∧
    (-5629499534213121 / 281474976710656 : ℚ) ≠ -20 := by
  have hM : (construct ⟨⟨none, "", "", ""⟩, none, none⟩
      ⟨false, OrientationAPI.undefined⟩ true).settings.tiltEffectMaxRotation = 20 := rfl
  have a1 : mulDouble (-4503599627370497 / 4503599627370496) 20
      = -5629499534213121 / 281474976710656 :=
    round64_of_neg _ _ 4 5629499534213121 (by norm_num) (by norm_num) (by norm_num)
      (by norm_num [roundNearestEven]) (by norm_num)
  have a2 : mulDouble 1 20 = 20 := by
    rw [mulDouble, round64_eq_self _ 20 0 (by norm_num) (by norm_num) (by norm_num)]
    norm_num
  refine ⟨?_, hM, by norm_num⟩
  rw [handleTilt_fractional_corner, hM, a1, a2]

/-- C6, amended: for a rectangle of positive width and height whose coordinates lie on one
grid of step `2 ^ g` (integers when `g = 0`), origin and extent at most `2 ^ 50` steps, and
either mode, a pointer move at the top-left corner hands `updateTransform` the pair
(-maxRotation, +maxRotation), and after the frame the card transform carries these angles,
the perspective of the mode and the hover scale (1.05 or 1.03) on all three axes.  For any
rectangle and pointer the frame writes the perspective of the mode and the hover scale on
all three axes, and for any rectangle the corner gives (-maxRotation, +maxRotation)
whenever its offsets from the centre are minus half the width and minus half the height,
all as the code computes them. -/
theorem handleTilt_top_left_corner (el : CardElement) (p : Platform) (flag : Bool)
    (steps : List Step) (g : ℤ) (rect : Rect) (hgrid : OnGrid g rect ⟨rect.left, rect.top⟩)
    (hw : 0 < rect.width) (hh : 0 < rect.height) :
    handleTilt (run (construct el p flag) steps) rect ⟨rect.left, rect.top⟩
      = updateTransform (run (construct el p flag) steps)
          (-(if flag then 20 else 15)) (if flag then 20 else 15) ∧
    (runFrame (handleTilt (run (construct el p flag) steps) rect
        ⟨rect.left, rect.top⟩)).card.transform
      = some ⟨if flag then 1000 else 800, -(if flag then 20 else 15), if flag then 20 else 15,
          if flag then 1.05 else 1.03, if flag then 1.05 else 1.03,
          if flag then 1.05 else 1.03⟩ ∧
    (∀ (r : Rect) (e : MouseEvent), ∃ angleX angleY : ℚ,
      (runFrame (handleTilt (run (construct el p flag) steps) r e)).card.transform
        = some ⟨if flag then 1000 else 800, angleX, angleY, if flag then 1.05 else 1.03,
            if flag then 1.05 else 1.03, if flag then 1.05 else 1.03⟩) ∧
    ∀ r : Rect, 0 < divDouble r.width 2 → 0 < divDouble r.height 2 →
      subDouble r.left (addDouble r.left (divDouble r.width 2)) = -divDouble r.width 2 →
      subDouble r.top (addDouble r.top (divDouble r.height 2)) = -divDouble r.height 2 →
      handleTilt (run (construct el p flag) steps) r ⟨r.left, r.top⟩
        = updateTransform (run (construct el p flag) steps)
            (-(if flag then 20 else 15)) (if flag then 20 else 15) := by
  have hset := (reach_run el p flag steps).settings_eq
  generalize run (construct el p flag) steps = w at hset ⊢
  have hM : w.settings.tiltEffectMaxRotation = (if flag then 20 else 15) := by rw [hset]
  have hMr : round64 w.settings.tiltEffectMaxRotation = w.settings.tiltEffectMaxRotation := by
    rw [hM]
    cases flag
    · exact round64_eq_self _ 15 0 (by norm_num) (by norm_num) (by norm_num)
    · exact round64_eq_self _ 20 0 (by norm_num) (by norm_num) (by norm_num)
  have hM1 : 1 ≤ w.settings.tiltEffectMaxRotation := by
    rw [hM]; split <;> norm_num
  have hany : ∀ (r : Rect) (e : MouseEvent), ∃ angleX angleY : ℚ,
      (runFrame (handleTilt w r e)).card.transform
        = some ⟨if flag then 1000 else 800, angleX, angleY, if flag then 1.05 else 1.03,
            if flag then 1.05 else 1.03, if flag then 1.05 else 1.03⟩ := by
    intro r e
    simp only [handleTilt, card_runFrame_updateTransform, hset]
    exact ⟨_, _, rfl⟩
  have hgen : ∀ r : Rect, 0 < divDouble r.width 2 → 0 < divDouble r.height 2 →
      subDouble r.left (addDouble r.left (divDouble r.width 2)) = -divDouble r.width 2 →
      subDouble r.top (addDouble r.top (divDouble r.height 2)) = -divDouble r.height 2 →
      handleTilt w r ⟨r.left, r.top⟩
        = updateTransform w (-(if flag then 20 else 15)) (if flag then 20 else 15) := by
    intro r hdw hdh hmx hmy
    have hx := (axis_extreme (divDouble r.width 2) _ hdw hMr).2
    have hy := (axis_extreme (divDouble r.height 2) _ hdh hMr).1
    simp only [handleTilt, hmx, hmy, neg_neg, hx, hy]
    rw [hM]
  obtain ⟨hg1, hg2, ⟨l, hl⟩, ⟨t, ht⟩, ⟨wd, hwd⟩, ⟨hgt, hhgt⟩, -, -, bl, bt, bw, bh⟩ := hgrid
  obtain ⟨rl, rt, rwd, rh⟩ := rect
  simp only at hl ht hwd hhgt bl bt bw bh hw hh ⊢
  subst hl ht hwd hhgt
  have il : |l| ≤ 2 ^ 50 := grid_abs_le g l bl
  have it : |t| ≤ 2 ^ 50 := grid_abs_le g t bt
  have iw1 : 0 < wd := (grid_lt g 0 wd).mp (by simpa using hw)
  have ih1 : 0 < hgt := (grid_lt g 0 hgt).mp (by simpa using hh)
  have iw2 : wd ≤ 2 ^ 50 := (grid_le g wd (2 ^ 50)).mp (by simpa using bw)
  have ih2 : hgt ≤ 2 ^ 50 := (grid_le g hgt (2 ^ 50)).mp (by simpa using bh)
  have hax := (axis_angle g (2 * t - 2 * t - hgt) hgt w.settings.tiltEffectMaxRotation ih1 ih2
    (by rw [abs_le]; constructor <;> omega) hMr hM1).2.2.2.2 (by ring)
  have hay := (axis_angle g (-(2 * l - 2 * l - wd)) wd w.settings.tiltEffectMaxRotation iw1 iw2
    (by rw [abs_le]; constructor <;> omega) hMr hM1).2.2.2.1 (by ring)
  have h1 : handleTilt w ⟨l * 2 ^ g, t * 2 ^ g, wd * 2 ^ g, hgt * 2 ^ g⟩ ⟨l * 2 ^ g, t * 2 ^ g⟩
      = updateTransform w (-(if flag then 20 else 15)) (if flag then 20 else 15) := by
    rw [handleTilt_on_grid w g l t wd hgt l t hg1 il it iw1 iw2 ih1 ih2 le_rfl (by omega)
      le_rfl (by omega), hax, hay, hM]
  refine ⟨h1, ?_, hany, hgen⟩
  rw [h1, card_runFrame_updateTransform, hset]

/-- Witness of C6, amended: a 300 by 200 card at (40, 60), normal mode, integer grid: angles
-15 and 15, scale 1.03. -/
theorem handleTilt_top_left_corner_witness :
    (runFrame (handleTilt (run (construct ⟨⟨none, "", "", ""⟩, none, none⟩
        ⟨false, OrientationAPI.undefined⟩ false) [Step.animationFrame])
        ⟨40, 60, 300, 200⟩ ⟨40, 60⟩)).card.transform
      = some ⟨800, -15, 15, 1.03, 1.03, 1.03⟩ := by
  have hgrid : OnGrid 0 ⟨40, 60, 300, 200⟩ ⟨40, 60⟩ :=
    { step_ge := by norm_num
      step_le := by norm_num
      left_mul := ⟨40, by norm_num⟩
      top_mul := ⟨60, by norm_num⟩
      width_mul := ⟨300, by norm_num⟩
      height_mul := ⟨200, by norm_num⟩
      clientX_mul := ⟨40, by norm_num⟩
      clientY_mul := ⟨60, by norm_num⟩
      left_le := by norm_num
      top_le := by norm_num
      width_le := by norm_num
      height_le := by norm_num }
  have h := (handleTilt_top_left_corner ⟨⟨none, "", "", ""⟩, none, none⟩
    ⟨false, OrientationAPI.undefined⟩ false [Step.animationFrame] 0 ⟨40, 60, 300, 200⟩ hgrid
    (by norm_num) (by norm_num)).2.1
  simpa using h

/-- C5 as stated fails: on a 300 by 200 card in normal mode, a `mousemove` at the centre
(150, 100) leaves, after the frame, zero rotation and perspective 800 but the hover scale
1.03 on each axis, not `scale3d(1, 1, 1)`. -/
theorem pointer_at_center_keeps_hover_scale :
    (run (construct ⟨⟨none, "", "", ""⟩, none, none⟩ ⟨false, OrientationAPI.undefined⟩ false)
      [Step.animationFrame, Step.cardEvent "mousemove" ⟨0, 0, 300, 200⟩ ⟨150, 100⟩,
        Step.animationFrame]).card.transform
      = some ⟨800, 0, 0, 1.03, 1.03, 1.03⟩ ∧
    (run (construct ⟨⟨none, "", "", ""⟩, none, none⟩ ⟨false, OrientationAPI.undefined⟩ false)
      [Step.animationFrame, Step.cardEvent "mousemove" ⟨0, 0, 300, 200⟩ ⟨150, 100⟩,
        Step.animationFrame]).card.transform
      ≠ some ⟨800, 0, 0, 1, 1, 1⟩ := by
  have h : (run (construct ⟨⟨none, "", "", ""⟩, none, none⟩
      ⟨false, OrientationAPI.undefined⟩ false)
      [Step.animationFrame, Step.cardEvent "mousemove" ⟨0, 0, 300, 200⟩ ⟨150, 100⟩,
        Step.animationFrame]).card.transform
      = some ⟨800, 0, 0, 1.03, 1.03, 1.03⟩ := by
    simp [run, step, construct, init, setupEventListeners, setupInitialState,
      requestAnimationFrame, addEventListener, runFrame, runCallback, dispatch, callHandler,
      handleTilt_center_300_200, updateTransform]
  refine ⟨h, ?_⟩
  rw [h]
  simp only [ne_eq, Option.some.injEq, CardTransform.mk.injEq, not_and]
  norm_num

/-- C5, amended: for a rectangle of positive width and height and either mode, a pointer
move at the centre of the rectangle, as the code computes it
(`rect.left + rect.width / 2`, `rect.top + rect.height / 2`), hands `updateTransform` the
pair (0, 0), and after the frame the card transform has zero rotation on both axes, the
perspective of the mode, and the hover scale of the mode (1.05 or 1.03) on all three
axes. -/
theorem handleTilt_at_center (el : CardElement) (p : Platform) (flag : Bool)
    (steps : List Step) (rect : Rect) (hw : 0 < rect.width) (hh : 0 < rect.height) :
    handleTilt (run (construct el p flag) steps) rect
        ⟨addDouble rect.left (divDouble rect.width 2),
          addDouble rect.top (divDouble rect.height 2)⟩
      = updateTransform (run (construct el p flag) steps) 0 0 ∧
    (runFrame (handleTilt (run (construct el p flag) steps) rect
        ⟨addDouble rect.left (divDouble rect.width 2),
          addDouble rect.top (divDouble rect.height 2)⟩)).card.transform
      = some ⟨if flag then 1000 else 800, 0, 0, if flag then 1.05 else 1.03,
          if flag then 1.05 else 1.03, if flag then 1.05 else 1.03⟩ := by
  have hset := (reach_run el p flag steps).settings_eq
  generalize run (construct el p flag) steps = w at hset ⊢
  have hne1 : rect.height ≠ 0 := ne_of_gt hh
  have hne2 : rect.width ≠ 0 := ne_of_gt hw
  have h1 := handleTilt_computed_center w rect
  refine ⟨h1, ?_⟩
  rw [h1, card_runFrame_updateTransform, hset]

/-- Witness of C5, amended: a 300 by 200 card at the origin, normal mode, whose computed
centre is (150, 100). -/
theorem handleTilt_at_center_witness :
    addDouble 0 (divDouble 300 2) = 150 ∧ addDouble 0 (divDouble 200 2) = 100 ∧
    (runFrame (handleTilt (run (construct ⟨⟨none, "", "", ""⟩, none, none⟩
        ⟨false, OrientationAPI.undefined⟩ false) [Step.animationFrame])
        ⟨0, 0, 300, 200⟩ ⟨addDouble 0 (divDouble 300 2),
          addDouble 0 (divDouble 200 2)⟩)).card.transform
      = some ⟨800, 0, 0, 1.03, 1.03, 1.03⟩ := by
  have h := (handleTilt_at_center ⟨⟨none, "", "", ""⟩, none, none⟩
    ⟨false, OrientationAPI.undefined⟩ false [Step.animationFrame] ⟨0, 0, 300, 200⟩
    (by norm_num) (by norm_num)).2
  have a1 : divDouble 300 2 = 150 := by
    rw [divDouble, round64_eq_self _ 150 0 (by norm_num) (by norm_num) (by norm_num)]
    norm_num
  have a2 : divDouble 200 2 = 100 := by
    rw [divDouble, round64_eq_self _ 100 0 (by norm_num) (by norm_num) (by norm_num)]
    norm_num
  refine ⟨?_, ?_, by simpa using h⟩
  · rw [a1, addDouble, round64_eq_self _ 150 0 (by norm_num) (by norm_num) (by norm_num)]
    norm_num
  · rw [a2, addDouble, round64_eq_self _ 100 0 (by norm_num) (by norm_num) (by norm_num)]
    norm_num

/-- C4 as stated fails: a card that already holds a `.shine-effect` child with inline opacity
1 and `translate(20%, -50%)` is not at rest after construction and the first frame; the
constructor reuses the child and `setupInitialState` writes the card transform only. -/
theorem not_at_rest_after_construction :
    ¬ AtRest 800 (run (construct ⟨⟨none, "", "", ""⟩, some ⟨some ⟨20, -50⟩, "1", ""⟩, none⟩
      ⟨false, OrientationAPI.undefined⟩ false) [Step.animationFrame]) := by
  intro h
  have h2 := h.2.1
  simp [run, step, construct, init, setupEventListeners, setupInitialState,
    requestAnimationFrame, addEventListener, runFrame, runCallback] at h2

/-- C4, amended: after construction and the first frame the card transform is the neutral
one for the perspective of the mode, an overlay the constructor created has opacity 0 and no
translation, and an overlay found under the card keeps its style; so the state is at rest
when both overlays were created.  From every reachable state, after `resetTilt` and its
frame the card transform is neutral and both overlays have opacity 0 and
`translate(0%, 0%)`. -/
theorem at_rest_after_construction_and_reset (el : CardElement) (p : Platform) (flag : Bool)
    (steps : List Step) :
    (runFrame (construct el p flag)).card.transform
      = some ⟨if flag then 1000 else 800, 0, 0, 1, 1, 1⟩ ∧
    (runFrame (construct el p flag)).shine = el.shineEffect.getD ⟨none, "0", ""⟩ ∧
    (runFrame (construct el p flag)).rainbowShine = el.rainbowShineEffect.getD ⟨none, "0", ""⟩ ∧
    (el.shineEffect = none → el.rainbowShineEffect = none →
      AtRest (if flag then 1000 else 800) (runFrame (construct el p flag))) ∧
    AtRest (if flag then 1000 else 800)
      (runFrame (resetTilt (run (construct el p flag) steps))) ∧
    (runFrame (resetTilt (run (construct el p flag) steps))).shine.transform = some ⟨0, 0⟩ ∧
    (runFrame (resetTilt (run (construct el p flag) steps))).rainbowShine.transform
      = some ⟨0, 0⟩ := by
  have hc : (runFrame (construct el p flag)).card.transform
      = some ⟨if flag then 1000 else 800, 0, 0, 1, 1, 1⟩ ∧
    (runFrame (construct el p flag)).shine = el.shineEffect.getD ⟨none, "0", ""⟩ ∧
    (runFrame (construct el p flag)).rainbowShine
      = el.rainbowShineEffect.getD ⟨none, "0", ""⟩ := by
    obtain ⟨m, api⟩ := p
    cases m <;> cases flag <;> cases api <;>
      simp [construct, init, setupGyro, subscribeGyro, setupEventListeners, setupInitialState,
        requestAnimationFrame, addEventListener, runFrame, runCallback, createShineElement,
        createRainbowShineElement]
  have hr : ∀ w : MTGCard3DTiltEffect,
      runFrame (resetTilt w) = runCallback (runFrame (setTransition w true)) Frame.reset := by
    intro w
    rw [resetTilt, runFrame_requestAnimationFrame]
  have hset := (reach_run el p flag steps).settings_eq
  generalize run (construct el p flag) steps = w at hset ⊢
  have hP : (runFrame (setTransition w true)).settings.tiltEffectPerspective
      = (if flag then 1000 else 800) := by
    rw [settings_runFrame]
    show w.settings.tiltEffectPerspective = _
    rw [hset]
  refine ⟨hc.1, hc.2.1, hc.2.2, ?_, ?_, ?_, ?_⟩
  · intro h1 h2
    refine ⟨hc.1, ?_, ?_, ?_, ?_⟩
    · rw [hc.2.1, h1]; rfl
    · rw [hc.2.1, h1]; exact Or.inl rfl
    · rw [hc.2.2, h2]; rfl
    · rw [hc.2.2, h2]; exact Or.inl rfl
  · rw [hr]
    refine ⟨?_, rfl, Or.inr rfl, rfl, Or.inr rfl⟩
    simp only [runCallback, hP]
  · rw [hr]; rfl
  · rw [hr]; rfl

/-- Witness of C4, amended: a bare card in normal mode is at rest after its first frame. -/
theorem at_rest_after_construction_and_reset_witness :
    AtRest 800 (runFrame (construct ⟨⟨none, "", "", ""⟩, none, none⟩
      ⟨false, OrientationAPI.undefined⟩ false)) := by
  have h := (at_rest_after_construction_and_reset ⟨⟨none, "", "", ""⟩, none, none⟩
    ⟨false, OrientationAPI.undefined⟩ false []).2.2.2.1 rfl rfl
  simpa using h

end CardEffects
